import Mathlib

/-!
Shallow embedding of src/deferred.js (the "moments" Deferred library).

The source is a single constructor function `Deferred` holding per-node
mutable state (flags, callback/errback/abort/progress/partial listener
arrays, child links, root/branch back pointers), plus the free functions
`when` (all-join) and `select` (first-wins) and a process wide default
error handler.  Scheduling uses `setTimeout(fn, 0)`, i.e. a FIFO queue of
tasks run after the current synchronous stack unwinds.

We model this as a heap of `Node` records indexed by `Nat`, a FIFO task
queue, and a fueled interpreter `exec` over a deep embedding `Call` of
the method bodies of the source.  Stored callbacks are deeply embedded as
`Fn` (observation spies, constant or throwing functions, and the internal
adapter closures of the source: the splice adapters created inside
`runCallback`, the `when` and `select` adapters, and the identity
callback returned by `select`).  JavaScript exceptions are modelled by
the `Res.thrown` result; `Res.out` is the artificial out-of-fuel result
(never produced in any run with sufficient fuel).
-/

namespace MomentsDeferred

mutual
/-- JavaScript values, restricted to what the library manipulates:
undefined, booleans, numbers, strings, Error objects (identified by their
message), arrays, and references to Deferred objects (by heap id).
Arrays hold a ValueList (a mutual inductive rather than a nested List so
that equality of values is derivably decidable). -/
inductive Value where
  | undef : Value
  | vbool (b : Bool) : Value
  | vnum (n : Nat) : Value
  | vstr (s : String) : Value
  | verror (msg : String) : Value
  | varr (elems : ValueList) : Value
  | vdef (id : Nat) : Value
/-- A JavaScript array of values. -/
inductive ValueList where
  | nil : ValueList
  | cons (hd : Value) (tl : ValueList) : ValueList
end

deriving instance DecidableEq for Value
deriving instance DecidableEq for ValueList

/-- Pack a Lean list of values as a JavaScript array value. -/
def listToVL : List Value → ValueList
  | [] => ValueList.nil
  | v :: vs => ValueList.cons v (listToVL vs)

/-- JavaScript truthiness of a `Value` (objects and arrays are truthy). -/
def truthy : Value → Bool
  | Value.undef => false
  | Value.vbool b => b
  | Value.vnum n => n != 0
  | Value.vstr s => !s.isEmpty
  | Value.verror _ => true
  | Value.varr _ => true
  | Value.vdef _ => true

/-- The TypeError value raised by JavaScript when property access or a
call is performed on undefined or on a non-function. -/
def typeErrorVal : Value := Value.verror "TypeError"

/-- Deep embedding of the functions that can be stored in the listener
arrays of a node.  `spy` is an observation callback that records its
invocation (used to formalise that a user callback is or is not invoked,
and with which arguments); `ret`, `retDef`, `throwFn` and `identityFn`
are the remaining user-level shapes the claims need; the others are the
internal adapter closures of the source, each carrying the data the
corresponding JavaScript closure captures. -/
inductive Fn where
  | spy (tag : Nat) : Fn
  | ret (v : Value) : Fn
  | retDef (id : Nat) : Fn
  | throwFn (e : Value) : Fn
  | identityFn : Fn
  | spliceThen (parentId : Nat) (idx : Nat) (innerId : Nat) : Fn
  | spliceErr (parentId : Nat) (idx : Nat) (innerId : Nat) : Fn
  | whenThen (ctx : Nat) (idx : Nat) : Fn
  | whenErr (ctx : Nat) : Fn
  | selectThen (ctx : Nat) (idx : Nat) : Fn
  | selectErr (ctx : Nat) : Fn
  deriving DecidableEq

/-- Observable events of a run: invocations of user spy callbacks (with
their arguments), console.log diagnostics, and exceptions that escaped a
scheduled task (uncaught, they would reach the host). -/
inductive Event where
  | invoke (tag : Nat) (args : List Value) : Event
  | log (msg : String) : Event
  | uncaught (e : Value) : Event
  deriving DecidableEq

/-- A node of the chain tree: the closure state of one `Deferred` object
in the source (lines 74-493 of src/deferred.js).  `progressDone` and
`progressOutOf` model the variables `done` and `outOf` of the source;
they are never assigned because in the source the parameters of
`this.progress = function (done, outOf)` shadow them. -/
structure Node where
  callbacked : Bool := false
  callbackArgs : List Value := []
  errbacked : Bool := false
  errbackError : Value := Value.verror "errback called without error as argument!"
  aborted : Bool := false
  abortArgs : List Value := []
  abortFns : List Fn := []
  nextLinks : List Nat := []
  callbackFns : List Fn := []
  errbackFns : List Fn := []
  progressFns : List Fn := []
  progressDone : Option Value := none
  progressOutOf : Option Value := none
  partialFns : List Fn := []
  finallyFn : Option Fn := none
  root : Option Nat := none
  branch : Option Nat := none
  deriving DecidableEq

/-- Scheduled tasks: the bodies of the `setTimeout(..., 0)` closures of
the source.  Data the closure reads at run time (such as `callbackArgs`
or `nextLinks`) is re-read from the heap when the task runs, matching
the JavaScript closures which read live variables. -/
inductive Task where
  | runCallbackStored (id : Nat) : Task
  | runErrbackT (id : Nat) (e : Value) : Task
  | thenFire (parentId : Nat) (f : Fn) : Task
  | thenErr (childId : Nat) (parentId : Nat) : Task
  | thenAbort (parentId : Nat) : Task
  | orReplay (id : Nat) : Task
  deriving DecidableEq

/-- Shared mutable state of one `when` call: the closure variables
`returnValues`, `totalDeferreds` and `deferredsDone` plus the output
deferred `d`. -/
structure WhenCtx where
  dId : Nat
  returnValues : List (Option Value)
  total : Nat
  deferredsDone : Nat
  deriving DecidableEq

/-- Shared mutable state of one `select` call: the closure variables
`done`, `totalDeferreds`, `winner`, `errored` and the input list `args`
plus the output deferred `d`. -/
structure SelectCtx where
  dId : Nat
  done : Bool
  total : Nat
  inputs : List Nat
  errored : Bool
  winner : Option Nat
  deriving DecidableEq

/-- Global interpreter state: the heap of Deferred nodes, the FIFO
`setTimeout` queue, the contexts of `when` and `select` calls, the
process wide `Deferred.defaultErrorHandler` slot, and the event log. -/
structure St where
  heap : List Node := []
  tasks : List Task := []
  whenCtxs : List WhenCtx := []
  selectCtxs : List SelectCtx := []
  defaultHandler : Option Fn := none
  events : List Event := []
  deriving DecidableEq

/-- Result of evaluating a piece of source code: a normal completion
with a value, a thrown JavaScript exception, or interpreter fuel
exhaustion (an artifact of the embedding, never occurring with enough
fuel). -/
inductive Res where
  | ok (v : Value) : Res
  | thrown (e : Value) : Res
  | out : Res

/-- The node stored at heap index `i` (a dummy default outside range;
all modelled runs stay in range). -/
def nodeAt (s : St) (i : Nat) : Node := s.heap.getD i {}

/-- Replace the node at index `i` by `f` of it. -/
def updNode (s : St) (i : Nat) (f : Node → Node) : St :=
  { s with heap := s.heap.set i (f (nodeAt s i)) }

/-- Append an observable event. -/
def pushLog (s : St) (e : Event) : St := { s with events := s.events ++ [e] }

/-- Append a task to the FIFO `setTimeout` queue. -/
def enqueue (s : St) (t : Task) : St := { s with tasks := s.tasks ++ [t] }

/-- Deep embedding of the code fragments of src/deferred.js that the
interpreter executes: the public methods, the internal loops of their
bodies (modelled as recursive calls so that the live listener arrays are
re-read on every iteration exactly as the JavaScript index loops do),
application of a stored function, and the body of a scheduled task. -/
inductive Call where
  | runCallback (id : Nat) (args : List Value) : Call
  | cbLoop (id : Nat) (i : Nat) (args : List Value) : Call
  | runErrback (id : Nat) (e : Value) (faulty : Option Fn) : Call
  | errFnLoop (id : Nat) (i : Nat) (e : Value) : Call
  | errChildLoop (id : Nat) (j : Nat) (acc : Value) : Call
  | callbackM (id : Nat) (args : List Value) : Call
  | errbackM (id : Nat) (e : Value) : Call
  | thenM (id : Nat) (f : Fn) : Call
  | orIfErrorM (id : Nat) (f : Fn) : Call
  | propagateAbort (id : Nat) (args : List Value) : Call
  | abortFnLoop (id : Nat) (i : Nat) : Call
  | abortKidsLoop (id : Nat) (j : Nat) : Call
  | abortM (id : Nat) (args : List Value) : Call
  | abortBranchM (id : Nat) : Call
  | abortAllM (id : Nat) : Call
  | onAbortM (id : Nat) (f : Fn) : Call
  | progressM (id : Nat) (dv : Value) (ov : Value) : Call
  | progFnLoop (id : Nat) (i : Nat) (dv : Value) (ov : Value) : Call
  | onProgressM (id : Nat) (f : Fn) : Call
  | partialResultM (id : Nat) (v : Value) : Call
  | partFnLoop (id : Nat) (i : Nat) (v : Value) : Call
  | onPartialResultM (id : Nat) (f : Fn) : Call
  | andAtLastM (id : Nat) (f : Fn) : Call
  | setBranch (id : Nat) (b : Nat) : Call
  | setBranchKids (ids : List Nat) : Call
  | reArrangeBranch (id : Nat) : Call
  | applyFn (f : Fn) (args : List Value) : Call
  | selectAbortLoop (ctx : Nat) (i2 : Nat) : Call
  | runTask (t : Task) : Call

/-- One unfolding of the interpreter: given the interpretation `r` of
recursive occurrences, interpret one `Call`.  Each case is a direct
transcription of the corresponding lines of src/deferred.js; comments
cite the source.  JavaScript try/catch blocks are modelled by matching
on `Res.thrown`; `Res.out` always propagates (fuel exhaustion is never
caught). -/
def execBody (r : Call → St → St × Res) : Call → St → St × Res
  | Call.runCallback id args, s =>
    -- lines 179-238
    let nd := nodeAt s id
    if nd.callbacked then
      (s, Res.thrown (Value.verror "Deferred has already been callbacked!"))
    else if nd.errbacked then (s, Res.ok Value.undef)
    else
      let s1 := updNode s id (fun n => { n with callbacked := true, callbackArgs := args })
      match (nodeAt s1 id).finallyFn with
      | some f =>
        match r (Call.applyFn f []) s1 with
        | (s2, Res.ok _) => (s2, Res.ok Value.undef)
        | other => other
      | none =>
        match r (Call.cbLoop id 0 args) s1 with
        | (s2, Res.ok _) =>
          (updNode s2 id (fun n => { n with root := none, branch := none }), Res.ok Value.undef)
        | other => other
  | Call.cbLoop id i args, s =>
    -- lines 194-233: the for loop over callbackFunctions
    let nd := nodeAt s id
    match nd.callbackFns.get? i with
    | none => (s, Res.ok Value.undef)
    | some fn =>
      match nd.nextLinks.get? i with
      | none => (s, Res.thrown typeErrorVal)
      | some link =>
        if (nodeAt s link).aborted then r (Call.cbLoop id (i + 1) args) s
        else
          -- the catch handler of lines 228-232
          let onCaught := fun (sc : St) (e : Value) =>
            match r (Call.runErrback link e (some fn)) sc with
            | (s2, Res.ok _) => r (Call.cbLoop id (i + 1) args) s2
            | other => other
          match r (Call.applyFn fn args) s with
          | (s1, Res.out) => (s1, Res.out)
          | (s1, Res.thrown e) => onCaught s1 e
          | (s1, Res.ok v) =>
            match v with
            | Value.vdef innerId =>
              -- lines 205-224: splice a returned Deferred
              match r (Call.thenM innerId (Fn.spliceThen id i innerId)) s1 with
              | (s2, Res.out) => (s2, Res.out)
              | (s2, Res.thrown e) => onCaught s2 e
              | (s2, Res.ok tv) =>
                match tv with
                | Value.vdef spliceChild =>
                  match r (Call.orIfErrorM spliceChild (Fn.spliceErr id i innerId)) s2 with
                  | (s3, Res.out) => (s3, Res.out)
                  | (s3, Res.thrown e) => onCaught s3 e
                  | (s3, Res.ok _) => r (Call.cbLoop id (i + 1) args) s3
                | _ => onCaught s2 typeErrorVal
            | _ =>
              match r (Call.runCallback link [v]) s1 with
              | (s2, Res.ok _) => r (Call.cbLoop id (i + 1) args) s2
              | (s2, Res.out) => (s2, Res.out)
              | (s2, Res.thrown e) => onCaught s2 e
  | Call.runErrback id e faulty, s =>
    -- lines 119-177
    let nd := nodeAt s id
    if nd.errbacked then (s, Res.ok (Value.vdef id))
    else if nd.aborted then (s, Res.ok (Value.vdef id))
    else
      let s1 := updNode s id (fun n => { n with errbacked := true, errbackError := e })
      -- the epilogue of lines 167-176: clear back links, run finally, return
      let finish := fun (sf : St) (acc : Value) =>
        let sf1 := updNode sf id (fun n => { n with root := none, branch := none })
        match (nodeAt sf1 id).finallyFn with
        | some f =>
          match r (Call.applyFn f []) sf1 with
          | (s2, Res.ok _) => (s2, Res.ok acc)
          | other => other
        | none => (sf1, Res.ok acc)
      match r (Call.errFnLoop id 0 e) s1 with
      | (s2, Res.ok _) =>
        -- errorHandled is true iff the loop body ran at least once
        if (nodeAt s2 id).errbackFns.length != 0 then finish s2 (Value.vbool true)
        else
          match r (Call.errChildLoop id 0 (Value.vbool false)) s2 with
          | (s3, Res.ok acc) =>
            if truthy acc then finish s3 acc
            else
              match s3.defaultHandler with
              | some h =>
                -- lines 153-156: use the default handler, then plain return
                match r (Call.applyFn h [(nodeAt s3 id).errbackError]) s3 with
                | (s4, Res.ok _) => (s4, Res.ok Value.undef)
                | other => other
              | none =>
                let msg := match faulty with
                  | none => "error not handled in errback or in the rest of the chain! rethrowing..."
                  | some _ => "Error in callback Function"
                (pushLog s3 (Event.log msg), Res.thrown (nodeAt s3 id).errbackError)
          | other => other
      | other => other
  | Call.errFnLoop id i e, s =>
    -- lines 131-140: the for loop over errbackFunctions
    let nd := nodeAt s id
    match nd.errbackFns.get? i with
    | none => (s, Res.ok Value.undef)
    | some f =>
      match r (Call.applyFn f [e]) s with
      | (s2, Res.ok _) => r (Call.errFnLoop id (i + 1) e) s2
      | (s2, Res.out) => (s2, Res.out)
      | (s2, Res.thrown _) =>
        (pushLog s2 (Event.log "error in errback, will not continue!"),
         Res.thrown (Value.verror "error in errback, will not continue!"))
  | Call.errChildLoop id j acc, s =>
    -- lines 147-149: errorHandled = errorHandled || nextLinks[j].runErrback(errbackError)
    let nd := nodeAt s id
    match nd.nextLinks.get? j with
    | none => (s, Res.ok acc)
    | some c =>
      if truthy acc then r (Call.errChildLoop id (j + 1) acc) s
      else
        match r (Call.runErrback c nd.errbackError none) s with
        | (s2, Res.ok v) => r (Call.errChildLoop id (j + 1) v) s2
        | other => other
  | Call.callbackM id args, s =>
    -- lines 247-262
    let nd := nodeAt s id
    if nd.aborted then (s, Res.ok (Value.vdef id))
    else if nd.errbacked then (s, Res.ok (Value.vdef id))
    else
      let s1 := updNode s id (fun n => { n with callbackArgs := args })
      (enqueue s1 (Task.runCallbackStored id), Res.ok (Value.vdef id))
  | Call.errbackM id e, s =>
    -- lines 264-279
    let nd := nodeAt s id
    if nd.aborted then (s, Res.ok (Value.vdef id))
    else if nd.errbacked then
      (pushLog s (Event.log "Deferred is already errbacked, will not run errback!"),
       Res.ok (Value.vdef id))
    else (enqueue s (Task.runErrbackT id e), Res.ok (Value.vdef id))
  | Call.thenM id f, s =>
    -- lines 310-344
    let nd := nodeAt s id
    let m := s.heap.length
    -- epilogue of lines 323-343: schedule on an already resolved node
    let thenFinish := fun (sf : St) =>
      let nf := nodeAt sf id
      if nf.aborted then (enqueue sf (Task.thenAbort id), Res.ok (Value.vdef id))
      else if nf.errbacked then (enqueue sf (Task.thenErr m id), Res.ok (Value.vdef m))
      else if nf.callbacked then (enqueue sf (Task.thenFire id f), Res.ok (Value.vdef m))
      else (sf, Res.ok (Value.vdef m))
    if nd.callbackFns.length != 0 then
      -- next = new Deferred(root); nextLinks.push(next); maybe rearrange
      let child : Node := { root := some (nd.root.getD m), branch := some m }
      let s1 := { s with heap := s.heap ++ [child] }
      let s2 := updNode s1 id (fun n => { n with nextLinks := n.nextLinks ++ [m] })
      let step3 :=
        match nd.branch, nd.callbackFns.length == 1 with
        | some b, true => r (Call.reArrangeBranch b) s2
        | _, _ => (s2, Res.ok Value.undef)
      match step3 with
      | (s3, Res.ok _) =>
        thenFinish (updNode s3 id (fun n => { n with callbackFns := n.callbackFns ++ [f] }))
      | other => other
    else
      -- next = new Deferred(root, branch); nextLinks.push(next)
      let child : Node := { root := some (nd.root.getD m), branch := some (nd.branch.getD m) }
      let s1 := { s with heap := s.heap ++ [child] }
      let s2 := updNode s1 id
        (fun n => { n with nextLinks := n.nextLinks ++ [m], callbackFns := n.callbackFns ++ [f] })
      thenFinish s2
  | Call.orIfErrorM id f, s =>
    -- lines 346-367
    let nd := nodeAt s id
    if nd.aborted then
      (pushLog s (Event.log "Deferred has been aborted, cannot add errback!"), Res.ok (Value.vdef id))
    else
      let s1 := updNode s id (fun n => { n with errbackFns := n.errbackFns ++ [f] })
      if nd.errbacked then (enqueue s1 (Task.orReplay id), Res.ok (Value.vdef id))
      else (s1, Res.ok (Value.vdef id))
  | Call.propagateAbort id args, s =>
    -- lines 378-394
    let nd := nodeAt s id
    if nd.aborted then (s, Res.ok Value.undef)
    else
      let s1 := updNode s id (fun n => { n with aborted := true, abortArgs := args })
      let step2 :=
        if !nd.callbacked && !nd.errbacked then r (Call.abortFnLoop id 0) s1
        else (s1, Res.ok Value.undef)
      match step2 with
      | (s2, Res.ok _) =>
        match r (Call.abortKidsLoop id 0) s2 with
        | (s3, Res.ok _) =>
          (updNode s3 id (fun n => { n with root := none, branch := none }), Res.ok Value.undef)
        | other => other
      | other => other
  | Call.abortFnLoop id i, s =>
    -- lines 369-376: runAbortFunctions is invoked with no arguments, so
    -- the listeners receive an empty argument list
    let nd := nodeAt s id
    match nd.abortFns.get? i with
    | none => (s, Res.ok Value.undef)
    | some f =>
      match r (Call.applyFn f []) s with
      | (s2, Res.ok _) => r (Call.abortFnLoop id (i + 1)) s2
      | other => other
  | Call.abortKidsLoop id j, s =>
    -- lines 386-389: nextLinks[i].propagateAbort() with no arguments
    let nd := nodeAt s id
    match nd.nextLinks.get? j with
    | none => (s, Res.ok Value.undef)
    | some c =>
      match r (Call.propagateAbort c []) s with
      | (s2, Res.ok _) => r (Call.abortKidsLoop id (j + 1)) s2
      | other => other
  | Call.abortM id args, s =>
    -- lines 396-411
    let nd := nodeAt s id
    if nd.aborted then
      (pushLog s (Event.log "Deferred has already been aborted, cannot abort again!"),
       Res.ok (Value.vdef id))
    else if nd.callbacked then
      (pushLog s (Event.log "Deferred has already been callbacked, cannot abort after that!"),
       Res.ok (Value.vdef id))
    else if nd.errbacked then
      (pushLog s (Event.log "Deferred has already been errbacked, cannot abort after that!"),
       Res.ok (Value.vdef id))
    else
      match r (Call.propagateAbort id args) s with
      | (s2, Res.ok _) => (s2, Res.ok (Value.vdef id))
      | other => other
  | Call.abortBranchM id, s =>
    -- lines 414-417: branch.abort()
    match (nodeAt s id).branch with
    | none => (s, Res.thrown typeErrorVal)
    | some b =>
      match r (Call.abortM b []) s with
      | (s2, Res.ok _) => (s2, Res.ok (Value.vdef id))
      | other => other
  | Call.abortAllM id, s =>
    -- lines 420-427
    let target := ((nodeAt s id).root).getD id
    match r (Call.abortM target []) s with
    | (s2, Res.ok _) => (s2, Res.ok (Value.vdef id))
    | other => other
  | Call.onAbortM id f, s =>
    -- lines 429-435: late listeners are replayed with abortArgs
    let s1 := updNode s id (fun n => { n with abortFns := n.abortFns ++ [f] })
    if (nodeAt s id).aborted then
      match r (Call.applyFn f (nodeAt s id).abortArgs) s1 with
      | (s2, Res.ok _) => (s2, Res.ok (Value.vdef id))
      | other => other
    else (s1, Res.ok (Value.vdef id))
  | Call.progressM id dv ov, s =>
    -- lines 437-447: note that the parameters done and outOf shadow the
    -- instance variables, so no progress tuple is ever stored
    if (nodeAt s id).aborted then
      (pushLog s (Event.log "The deferred has been aborted, cannot set progress!"),
       Res.ok (Value.vdef id))
    else
      match r (Call.progFnLoop id 0 dv ov) s with
      | (s2, Res.ok _) => (s2, Res.ok (Value.vdef id))
      | other => other
  | Call.progFnLoop id i dv ov, s =>
    let nd := nodeAt s id
    match nd.progressFns.get? i with
    | none => (s, Res.ok Value.undef)
    | some f =>
      match r (Call.applyFn f [dv, ov]) s with
      | (s2, Res.ok _) => r (Call.progFnLoop id (i + 1) dv ov) s2
      | other => other
  | Call.onProgressM id f, s =>
    -- lines 449-459
    let nd := nodeAt s id
    if nd.aborted then
      (pushLog s (Event.log "The deferred has been aborted, will not register progress function!"),
       Res.ok (Value.vdef id))
    else
      let s1 := updNode s id (fun n => { n with progressFns := n.progressFns ++ [f] })
      match nd.progressDone, nd.progressOutOf with
      | some d0, some o0 =>
        match r (Call.applyFn f [d0, o0]) s1 with
        | (s2, Res.ok _) => (s2, Res.ok (Value.vdef id))
        | other => other
      | _, _ => (s1, Res.ok (Value.vdef id))
  | Call.partialResultM id v, s =>
    -- lines 461-470: note there is no return statement at the end
    if (nodeAt s id).aborted then
      (pushLog s (Event.log "The deferred has been aborted, will not call partial result!"),
       Res.ok (Value.vdef id))
    else
      match r (Call.partFnLoop id 0 v) s with
      | (s2, Res.ok _) => (s2, Res.ok Value.undef)
      | other => other
  | Call.partFnLoop id i v, s =>
    let nd := nodeAt s id
    match nd.partialFns.get? i with
    | none => (s, Res.ok Value.undef)
    | some f =>
      match r (Call.applyFn f [v]) s with
      | (s2, Res.ok _) => r (Call.partFnLoop id (i + 1) v) s2
      | other => other
  | Call.onPartialResultM id f, s =>
    -- lines 472-479
    if (nodeAt s id).aborted then
      (pushLog s (Event.log "The deferred has been aborted, will not register partial result function!"),
       Res.ok (Value.vdef id))
    else
      (updNode s id (fun n => { n with partialFns := n.partialFns ++ [f] }), Res.ok (Value.vdef id))
  | Call.andAtLastM id f, s =>
    -- lines 485-490
    match (nodeAt s id).finallyFn with
    | some _ => (s, Res.thrown (Value.verror "Finally function already exists"))
    | none => (updNode s id (fun n => { n with finallyFn := some f }), Res.ok Value.undef)
  | Call.setBranch id b, s =>
    -- lines 285-295
    let s1 := updNode s id (fun n => { n with branch := some b })
    match (nodeAt s1 id).nextLinks with
    | [c] => r (Call.setBranch c b) s1
    | kids => r (Call.setBranchKids kids) s1
  | Call.setBranchKids ids, s =>
    -- lines 290-293: each child becomes its own branch head; setBranch
    -- never modifies nextLinks, so iterating a snapshot of the list is
    -- equivalent to the live index loop of the source
    match ids with
    | [] => (s, Res.ok Value.undef)
    | c :: rest =>
      match r (Call.setBranch c c) s with
      | (s2, Res.ok _) => r (Call.setBranchKids rest) s2
      | other => other
  | Call.reArrangeBranch id, s =>
    -- lines 281-283: nextLinks[0].setBranch(nextLinks[0])
    match (nodeAt s id).nextLinks.head? with
    | none => (s, Res.thrown typeErrorVal)
    | some c => r (Call.setBranch c c) s
  | Call.applyFn f args, s =>
    match f with
    | Fn.spy tag => (pushLog s (Event.invoke tag args), Res.ok Value.undef)
    | Fn.ret v => (s, Res.ok v)
    | Fn.retDef d => (s, Res.ok (Value.vdef d))
    | Fn.throwFn e => (s, Res.thrown e)
    | Fn.identityFn => (s, Res.ok (args.getD 0 Value.undef))
    | Fn.spliceThen pid idx innerId =>
      -- lines 215-217: nextLinks[i].runCallback.apply(nextLinks[i], inner.getCallbackArgs())
      match (nodeAt s pid).nextLinks.get? idx with
      | none => (s, Res.thrown typeErrorVal)
      | some link => r (Call.runCallback link (nodeAt s innerId).callbackArgs) s
    | Fn.spliceErr pid idx innerId =>
      -- lines 218-223: only if inner has no locally registered errbacks,
      -- nextLinks[i].runErrback(ex, callbackFunctions[i])
      if (nodeAt s innerId).errbackFns.length == 0 then
        match (nodeAt s pid).nextLinks.get? idx with
        | none => (s, Res.thrown typeErrorVal)
        | some link =>
          r (Call.runErrback link (args.getD 0 Value.undef) ((nodeAt s pid).callbackFns.get? idx)) s
      else (s, Res.ok Value.undef)
    | Fn.whenThen cid idx =>
      -- lines 523-531
      match s.whenCtxs.get? cid with
      | none => (s, Res.thrown typeErrorVal)
      | some ctx =>
        let retVal := args.getD 0 Value.undef
        let rv := ctx.returnValues.set idx (some retVal)
        let dd := ctx.deferredsDone + 1
        let ctxs1 := s.whenCtxs.set cid ({ ctx with returnValues := rv, deferredsDone := dd })
        let s1 := { s with whenCtxs := ctxs1 }
        match r (Call.partialResultM ctx.dId (Value.varr (listToVL (rv.map (fun o => o.getD Value.undef)))) ) s1 with
        | (s2, Res.ok _) =>
          match r (Call.progressM ctx.dId (Value.vnum dd) (Value.vnum ctx.total)) s2 with
          | (s3, Res.ok _) =>
            if dd == ctx.total then
              r (Call.callbackM ctx.dId (rv.map (fun o => o.getD Value.undef))) s3
            else (s3, Res.ok Value.undef)
          | other => other
        | other => other
    | Fn.whenErr cid =>
      -- lines 532-534: d.runErrback(e)
      match s.whenCtxs.get? cid with
      | none => (s, Res.thrown typeErrorVal)
      | some ctx => r (Call.runErrback ctx.dId (args.getD 0 Value.undef) none) s
    | Fn.selectThen cid idx =>
      -- lines 570-583
      match s.selectCtxs.get? cid with
      | none => (s, Res.thrown typeErrorVal)
      | some ctx =>
        if ctx.done then (s, Res.ok Value.undef)
        else
          let ctxs1 := s.selectCtxs.set cid ({ ctx with done := true })
          let s1 := { s with selectCtxs := ctxs1 }
          match r (Call.callbackM ctx.dId [args.getD 0 Value.undef]) s1 with
          | (s2, Res.ok _) =>
            let s3 :=
              match s2.selectCtxs.get? cid with
              | some c2 =>
                let ctxs2 := s2.selectCtxs.set cid ({ c2 with winner := c2.inputs.get? idx })
                { s2 with selectCtxs := ctxs2 }
              | none => s2
            r (Call.selectAbortLoop cid 0) s3
          | other => other
    | Fn.selectErr cid =>
      -- lines 584-590: only the first errback reaches d
      match s.selectCtxs.get? cid with
      | none => (s, Res.thrown typeErrorVal)
      | some ctx =>
        let step1 :=
          if !ctx.errored then r (Call.errbackM ctx.dId (args.getD 0 Value.undef)) s
          else (s, Res.ok Value.undef)
        match step1 with
        | (s1, Res.ok _) =>
          let s2 :=
            match s1.selectCtxs.get? cid with
            | some c2 =>
              let ctxs2 := s1.selectCtxs.set cid ({ c2 with errored := true })
              { s1 with selectCtxs := ctxs2 }
            | none => s1
          (s2, Res.ok Value.undef)
        | other => other
  | Call.selectAbortLoop cid i2, s =>
    -- lines 577-582: abort every input that is not the winner
    match s.selectCtxs.get? cid with
    | none => (s, Res.ok Value.undef)
    | some ctx =>
      if i2 < ctx.total then
        match ctx.inputs.get? i2 with
        | none => (s, Res.thrown typeErrorVal)
        | some inp =>
          if ctx.winner == some inp then r (Call.selectAbortLoop cid (i2 + 1)) s
          else
            match r (Call.abortM inp []) s with
            | (s2, Res.ok _) => r (Call.selectAbortLoop cid (i2 + 1)) s2
            | other => other
      else (s, Res.ok Value.undef)
  | Call.runTask t, s =>
    match t with
    | Task.runCallbackStored id => r (Call.runCallback id (nodeAt s id).callbackArgs) s
    | Task.runErrbackT id e => r (Call.runErrback id e none) s
    | Task.thenFire pid f =>
      -- lines 339-341: callbackFunction.apply(that, callbackArgs); the
      -- return value is discarded, the child link is never advanced
      r (Call.applyFn f (nodeAt s pid).callbackArgs) s
    | Task.thenErr cid pid => r (Call.runErrback cid (nodeAt s pid).errbackError none) s
    | Task.thenAbort pid =>
      -- lines 324-326: nextLinks[nextLinks.length - 1] read at run time
      match (nodeAt s pid).nextLinks.getLast? with
      | none => (s, Res.thrown typeErrorVal)
      | some c => r (Call.propagateAbort c []) s
    | Task.orReplay id =>
      -- lines 355-364: the source invokes errbackFunctions(errbackError),
      -- calling the array itself as a function; JavaScript raises a
      -- TypeError which the enclosing try swallows with a console.log,
      -- so the newly registered handler is never invoked
      if (nodeAt s id).aborted then (s, Res.ok Value.undef)
      else
        (pushLog s (Event.log "error in errback, will not continue! TypeError: errbackFunctions is not a function"),
         Res.ok Value.undef)

/-- The fueled interpreter: `exec fuel c s` runs the code fragment `c`
in state `s`, spending one unit of fuel per nested call. -/
def exec : Nat → Call → St → St × Res :=
  fun fuel =>
    Nat.rec (motive := fun _ => Call → St → St × Res)
      (fun _ s => (s, Res.out))
      (fun _ ih => execBody ih)
      fuel

theorem exec_zero (c : Call) (s : St) : exec 0 c s = (s, Res.out) := rfl

theorem exec_succ (n : Nat) : exec (n + 1) = execBody (exec n) := rfl

/-- Run the task at the head of the `setTimeout` queue (one event loop
tick).  An exception escaping the task is recorded as uncaught. -/
def tick (fuel : Nat) (s : St) : St :=
  match s.tasks with
  | [] => s
  | t :: rest =>
    let s1 := { s with tasks := rest }
    match exec fuel (Call.runTask t) s1 with
    | (s2, Res.ok _) => s2
    | (s2, Res.thrown e) => pushLog s2 (Event.uncaught e)
    | (s2, Res.out) => pushLog s2 (Event.log "INTERPRETER OUT OF FUEL")

/-- Run event loop ticks until the queue is empty or the tick budget is
spent. -/
def drain (fuel : Nat) : Nat → St → St
  | 0, s => s
  | k + 1, s =>
    match s.tasks with
    | [] => s
    | _ => drain fuel k (tick fuel s)

/-- The empty initial state. -/
def emptySt : St := {}

/-- Construct a fresh Deferred: new Deferred() with root and branch
defaulting to the node itself (lines 74-86). -/
def mkDeferred (s : St) : St × Nat :=
  let id := s.heap.length
  ({ s with heap := s.heap ++ [{ root := some id, branch := some id }] }, id)

/-- Deferred.registerDefaultErrorHandler (lines 495-497). -/
def registerDefaultErrorHandler (f : Fn) (s : St) : St :=
  { s with defaultHandler := some f }

/-- The setup loop of `when` (lines 516-536): wire each input through a
then adapter and an orIfError adapter attached to the then child. -/
def whenWire (fuel : Nat) (cid : Nat) : List Nat → Nat → St → St
  | [], _, s => s
  | inp :: rest, i, s =>
    let step1 := exec fuel (Call.thenM inp (Fn.whenThen cid i)) s
    let s2 :=
      match step1 with
      | (s1, Res.ok (Value.vdef child)) => (exec fuel (Call.orIfErrorM child (Fn.whenErr cid)) s1).1
      | (s1, _) => s1
    whenWire fuel cid rest (i + 1) s2

/-- The free function `when` (lines 508-538): the all-join combinator.
Returns the state and the id of the output deferred. -/
def mkWhen (fuel : Nat) (inputs : List Nat) (s : St) : St × Nat :=
  let p := mkDeferred s
  let cid := p.1.whenCtxs.length
  let s2 := { p.1 with whenCtxs := p.1.whenCtxs ++
    [{ dId := p.2, returnValues := List.replicate inputs.length none,
       total := inputs.length, deferredsDone := 0 }] }
  (whenWire fuel cid inputs 0 s2, p.2)

/-- The setup loop of `select` (lines 563-592). -/
def selectWire (fuel : Nat) (cid : Nat) : List Nat → Nat → St → St
  | [], _, s => s
  | inp :: rest, i, s =>
    let step1 := exec fuel (Call.thenM inp (Fn.selectThen cid i)) s
    let s2 :=
      match step1 with
      | (s1, Res.ok (Value.vdef child)) => (exec fuel (Call.orIfErrorM child (Fn.selectErr cid)) s1).1
      | (s1, _) => s1
    selectWire fuel cid rest (i + 1) s2

/-- The free function `select` (lines 554-597): the first-wins
combinator.  It returns d.then(identity), so the returned id is the
identity child of the internal output deferred. -/
def mkSelect (fuel : Nat) (inputs : List Nat) (s : St) : St × Nat :=
  let p := mkDeferred s
  let cid := p.1.selectCtxs.length
  let s2 := { p.1 with selectCtxs := p.1.selectCtxs ++
    [{ dId := p.2, done := false, total := inputs.length, inputs := inputs,
       errored := false, winner := none }] }
  let s3 := selectWire fuel cid inputs 0 s2
  match exec fuel (Call.thenM p.2 Fn.identityFn) s3 with
  | (s4, Res.ok (Value.vdef outId)) => (s4, outId)
  | (s4, _) => (s4, p.2)


/-- Run a list of synchronous calls (the statements of a test scenario)
in order, keeping only the states. -/
def runSeq (cs : List Call) (s : St) : St :=
  cs.foldl (fun s c => (exec 60 c s).1) s

/-- Number of uncaught exceptions in an event list (a nonzero count is
the observable trace of the fatal rethrow diagnostic of lines 157-163). -/
def uncaughtCount (evs : List Event) : Nat :=
  evs.countP fun e =>
    match e with
    | Event.uncaught _ => true
    | _ => false

/-- Number of spy invocations with a given tag. -/
def invokeCount (tag : Nat) (evs : List Event) : Nat :=
  evs.countP fun e =>
    match e with
    | Event.invoke t _ => t == tag
    | _ => false

/-! ## C1: error bubbling across several children -/

/-- Scenario for C1: a root d (node 0) with two then children (nodes 1
and 2); node 1 carries an orIfError handler (spy 20), node 2 carries no
handler anywhere in its subtree and there is no default handler; then
d.errback(e) and a full drain of the event loop. -/
def c1St (e : Value) : St :=
  let p := mkDeferred emptySt
  let s := runSeq [Call.thenM 0 (Fn.spy 10), Call.thenM 0 (Fn.spy 11),
                   Call.orIfErrorM 1 (Fn.spy 20), Call.errbackM 0 e] p.1
  drain 60 20 s

/-- The state c1St computes to (checked definitionally below). -/
def c1Lit (e : Value) : St :=
  { heap := [
      { callbacked := false, callbackArgs := [], errbacked := true, errbackError := e, aborted := false, abortArgs := [], abortFns := [], nextLinks := [1, 2], callbackFns := [(Fn.spy 10), (Fn.spy 11)], errbackFns := [], progressFns := [], progressDone := none, progressOutOf := none, partialFns := [], finallyFn := none, root := none, branch := none },
      { callbacked := false, callbackArgs := [], errbacked := true, errbackError := e, aborted := false, abortArgs := [], abortFns := [], nextLinks := [], callbackFns := [], errbackFns := [(Fn.spy 20)], progressFns := [], progressDone := none, progressOutOf := none, partialFns := [], finallyFn := none, root := none, branch := none },
      { callbacked := false, callbackArgs := [], errbacked := false, errbackError := (Value.verror "errback called without error as argument!"), aborted := false, abortArgs := [], abortFns := [], nextLinks := [], callbackFns := [], errbackFns := [], progressFns := [], progressDone := none, progressOutOf := none, partialFns := [], finallyFn := none, root := (some 0), branch := (some 2) }],
    tasks := [],
    whenCtxs := [],
    selectCtxs := [],
    defaultHandler := none,
    events := [(Event.invoke 20 [e])] }

set_option maxHeartbeats 2000000 in
theorem c1St_eq (e : Value) : c1St e = c1Lit e := rfl

/-- Claim C1 (code bug witness): on a node with two children and no
local handler, the source evaluates errorHandled with a short-circuit
logical OR over the children (line 148 of src/deferred.js), so after
the first child reports the error handled the second child is never
visited: node 2 never enters Errbacked, only the handler of node 1
runs, and no fatal rethrow or diagnostic occurs even though the second
child subtree contains no handler.  The claim (and the comment at lines
143-145 of the source) instead requires every child to be visited and
all of them to report the error handled. -/
theorem c1_or_shortcircuit_run (e : Value) :
    (nodeAt (c1St e) 0).nextLinks = [1, 2] ∧
    (nodeAt (c1St e) 0).errbackFns = [] ∧
    (nodeAt (c1St e) 0).errbacked = true ∧
    (nodeAt (c1St e) 1).errbacked = true ∧
    (nodeAt (c1St e) 2).errbacked = false ∧
    (c1St e).events = [Event.invoke 20 [e]] ∧
    uncaughtCount (c1St e).events = 0 := by
  simp only [c1St_eq]
  exact ⟨rfl, rfl, rfl, rfl, rfl, rfl, rfl⟩

/-! ## C3: attach-before-resolve is equivalent to attach-after-resolve -/

/-- Scenario A for C3: d.then(f); d.callback(x), not yet drained. -/
def c3Before (x : Value) : St :=
  let p := mkDeferred emptySt
  runSeq [Call.thenM 0 (Fn.spy 0), Call.callbackM 0 [x]] p.1

/-- Scenario B for C3: d.callback(x); d.then(f), not yet drained. -/
def c3After (x : Value) : St :=
  let p := mkDeferred emptySt
  runSeq [Call.callbackM 0 [x], Call.thenM 0 (Fn.spy 0)] p.1

/-- Scenario C for C3: a fresh d; d.callback(x); full drain; the then
comes only afterwards (c3Late below). -/
def c3LateBase (x : Value) : St :=
  drain 60 20 (runSeq [Call.callbackM 0 [x]] (mkDeferred emptySt).1)

/-- The state c3Before computes to. -/
def c3BeforeLit (x : Value) : St :=
  { heap := [
      { callbacked := false, callbackArgs := [x], errbacked := false, errbackError := (Value.verror "errback called without error as argument!"), aborted := false, abortArgs := [], abortFns := [], nextLinks := [1], callbackFns := [(Fn.spy 0)], errbackFns := [], progressFns := [], progressDone := none, progressOutOf := none, partialFns := [], finallyFn := none, root := (some 0), branch := (some 0) },
      { callbacked := false, callbackArgs := [], errbacked := false, errbackError := (Value.verror "errback called without error as argument!"), aborted := false, abortArgs := [], abortFns := [], nextLinks := [], callbackFns := [], errbackFns := [], progressFns := [], progressDone := none, progressOutOf := none, partialFns := [], finallyFn := none, root := (some 0), branch := (some 0) }],
    tasks := [(Task.runCallbackStored 0)],
    whenCtxs := [],
    selectCtxs := [],
    defaultHandler := none,
    events := [] }

/-- The state draining c3Before computes to. -/
def c3BeforeDoneLit (x : Value) : St :=
  { heap := [
      { callbacked := true, callbackArgs := [x], errbacked := false, errbackError := (Value.verror "errback called without error as argument!"), aborted := false, abortArgs := [], abortFns := [], nextLinks := [1], callbackFns := [(Fn.spy 0)], errbackFns := [], progressFns := [], progressDone := none, progressOutOf := none, partialFns := [], finallyFn := none, root := none, branch := none },
      { callbacked := true, callbackArgs := [Value.undef], errbacked := false, errbackError := (Value.verror "errback called without error as argument!"), aborted := false, abortArgs := [], abortFns := [], nextLinks := [], callbackFns := [], errbackFns := [], progressFns := [], progressDone := none, progressOutOf := none, partialFns := [], finallyFn := none, root := none, branch := none }],
    tasks := [],
    whenCtxs := [],
    selectCtxs := [],
    defaultHandler := none,
    events := [(Event.invoke 0 [x])] }

/-- The state c3After computes to. -/
def c3AfterLit (x : Value) : St :=
  { heap := [
      { callbacked := false, callbackArgs := [x], errbacked := false, errbackError := (Value.verror "errback called without error as argument!"), aborted := false, abortArgs := [], abortFns := [], nextLinks := [1], callbackFns := [(Fn.spy 0)], errbackFns := [], progressFns := [], progressDone := none, progressOutOf := none, partialFns := [], finallyFn := none, root := (some 0), branch := (some 0) },
      { callbacked := false, callbackArgs := [], errbacked := false, errbackError := (Value.verror "errback called without error as argument!"), aborted := false, abortArgs := [], abortFns := [], nextLinks := [], callbackFns := [], errbackFns := [], progressFns := [], progressDone := none, progressOutOf := none, partialFns := [], finallyFn := none, root := (some 0), branch := (some 0) }],
    tasks := [(Task.runCallbackStored 0)],
    whenCtxs := [],
    selectCtxs := [],
    defaultHandler := none,
    events := [] }

/-- The state draining c3After computes to. -/
def c3AfterDoneLit (x : Value) : St :=
  { heap := [
      { callbacked := true, callbackArgs := [x], errbacked := false, errbackError := (Value.verror "errback called without error as argument!"), aborted := false, abortArgs := [], abortFns := [], nextLinks := [1], callbackFns := [(Fn.spy 0)], errbackFns := [], progressFns := [], progressDone := none, progressOutOf := none, partialFns := [], finallyFn := none, root := none, branch := none },
      { callbacked := true, callbackArgs := [Value.undef], errbacked := false, errbackError := (Value.verror "errback called without error as argument!"), aborted := false, abortArgs := [], abortFns := [], nextLinks := [], callbackFns := [], errbackFns := [], progressFns := [], progressDone := none, progressOutOf := none, partialFns := [], finallyFn := none, root := none, branch := none }],
    tasks := [],
    whenCtxs := [],
    selectCtxs := [],
    defaultHandler := none,
    events := [(Event.invoke 0 [x])] }

/-- The state c3LateBase computes to. -/
def c3LateBaseLit (x : Value) : St :=
  { heap := [
      { callbacked := true, callbackArgs := [x], errbacked := false, errbackError := (Value.verror "errback called without error as argument!"), aborted := false, abortArgs := [], abortFns := [], nextLinks := [], callbackFns := [], errbackFns := [], progressFns := [], progressDone := none, progressOutOf := none, partialFns := [], finallyFn := none, root := none, branch := none }],
    tasks := [],
    whenCtxs := [],
    selectCtxs := [],
    defaultHandler := none,
    events := [] }

/-- The state of scenario C after attaching f and draining again. -/
def c3LateLit (x : Value) : St :=
  { heap := [
      { callbacked := true, callbackArgs := [x], errbacked := false, errbackError := (Value.verror "errback called without error as argument!"), aborted := false, abortArgs := [], abortFns := [], nextLinks := [1], callbackFns := [(Fn.spy 0)], errbackFns := [], progressFns := [], progressDone := none, progressOutOf := none, partialFns := [], finallyFn := none, root := none, branch := none },
      { callbacked := false, callbackArgs := [], errbacked := false, errbackError := (Value.verror "errback called without error as argument!"), aborted := false, abortArgs := [], abortFns := [], nextLinks := [], callbackFns := [], errbackFns := [], progressFns := [], progressDone := none, progressOutOf := none, partialFns := [], finallyFn := none, root := (some 1), branch := (some 1) }],
    tasks := [],
    whenCtxs := [],
    selectCtxs := [],
    defaultHandler := none,
    events := [(Event.invoke 0 [x])] }

set_option maxHeartbeats 1000000 in
theorem c3Before_eq (x : Value) : c3Before x = c3BeforeLit x := rfl

set_option maxHeartbeats 1000000 in
theorem c3BeforeDone_eq (x : Value) :
    drain 60 20 (c3BeforeLit x) = c3BeforeDoneLit x := rfl

set_option maxHeartbeats 1000000 in
theorem c3After_eq (x : Value) : c3After x = c3AfterLit x := rfl

set_option maxHeartbeats 1000000 in
theorem c3AfterDone_eq (x : Value) :
    drain 60 20 (c3AfterLit x) = c3AfterDoneLit x := rfl

set_option maxHeartbeats 1000000 in
theorem c3LateBase_eq (x : Value) : c3LateBase x = c3LateBaseLit x := rfl

set_option maxHeartbeats 1000000 in
theorem c3Late_eq (x : Value) :
    drain 60 20 (runSeq [Call.thenM 0 (Fn.spy 0)] (c3LateBase x)) = c3LateLit x := by
  rw [c3LateBase_eq]
  exact rfl

/-- Claim C3 (confirmed): whether f is attached before d.callback(x),
directly after it, or only after the resolution has fully propagated,
f is invoked with x; and in no ordering is f invoked before a yield to
the event loop (before the drain both runs have an empty event log). -/
theorem c3_attach_before_equals_attach_after (x : Value) :
    (drain 60 20 (c3Before x)).events = [Event.invoke 0 [x]] ∧
    (drain 60 20 (c3After x)).events = [Event.invoke 0 [x]] ∧
    (drain 60 20 (runSeq [Call.thenM 0 (Fn.spy 0)] (c3LateBase x))).events
      = [Event.invoke 0 [x]] ∧
    (c3Before x).events = [] ∧
    (c3After x).events = [] := by
  simp only [c3Before_eq, c3After_eq, c3BeforeDone_eq, c3AfterDone_eq, c3Late_eq]
  exact ⟨rfl, rfl, rfl, rfl, rfl⟩

/-! ## C5: splicing absorbs handled inner errors -/

/-- Scenario for C5 (scenario 3 of section 8 of the spec): inner (node
0) with its own orIfError (spy 9); d (node 1); d.then(fun _ => inner)
creating child node 2; .then(f = spy 0) creating node 3;
inner.errback(E); d.callback(); full drain.  During the drain the
splice adapters are created: node 4 is the then child of inner holding
the spliceErr adapter. -/
def c5St : St :=
  let p := mkDeferred emptySt
  let q := mkDeferred p.1
  let s := runSeq [Call.thenM 1 (Fn.retDef 0), Call.thenM 2 (Fn.spy 0),
                   Call.orIfErrorM 0 (Fn.spy 9),
                   Call.errbackM 0 (Value.verror "E"), Call.callbackM 1 []] q.1
  drain 60 20 s

/-- The state c5St computes to. -/
def c5Lit : St :=
  { heap := [
      { callbacked := false, callbackArgs := [], errbacked := true, errbackError := (Value.verror "E"), aborted := false, abortArgs := [], abortFns := [], nextLinks := [4], callbackFns := [(Fn.spliceThen 1 0 0)], errbackFns := [(Fn.spy 9)], progressFns := [], progressDone := none, progressOutOf := none, partialFns := [], finallyFn := none, root := none, branch := none },
      { callbacked := true, callbackArgs := [], errbacked := false, errbackError := (Value.verror "errback called without error as argument!"), aborted := false, abortArgs := [], abortFns := [], nextLinks := [2], callbackFns := [(Fn.retDef 0)], errbackFns := [], progressFns := [], progressDone := none, progressOutOf := none, partialFns := [], finallyFn := none, root := none, branch := none },
      { callbacked := false, callbackArgs := [], errbacked := false, errbackError := (Value.verror "errback called without error as argument!"), aborted := false, abortArgs := [], abortFns := [], nextLinks := [3], callbackFns := [(Fn.spy 0)], errbackFns := [], progressFns := [], progressDone := none, progressOutOf := none, partialFns := [], finallyFn := none, root := (some 1), branch := (some 1) },
      { callbacked := false, callbackArgs := [], errbacked := false, errbackError := (Value.verror "errback called without error as argument!"), aborted := false, abortArgs := [], abortFns := [], nextLinks := [], callbackFns := [], errbackFns := [], progressFns := [], progressDone := none, progressOutOf := none, partialFns := [], finallyFn := none, root := (some 1), branch := (some 1) },
      { callbacked := false, callbackArgs := [], errbacked := true, errbackError := (Value.verror "E"), aborted := false, abortArgs := [], abortFns := [], nextLinks := [], callbackFns := [], errbackFns := [(Fn.spliceErr 1 0 0)], progressFns := [], progressDone := none, progressOutOf := none, partialFns := [], finallyFn := none, root := none, branch := none }],
    tasks := [],
    whenCtxs := [],
    selectCtxs := [],
    defaultHandler := none,
    events := [(Event.invoke 9 [(Value.verror "E")])] }

theorem c5St_eq : c5St = c5Lit := by decide!

/-- Claim C5 (confirmed): the splice error adapter registered by
runCallback (lines 218-223) calls child.runErrback only if the inner
deferred has no locally registered error handlers: whenever it runs
while inner.errbackFns is nonempty it returns leaving the state
untouched.  In the literal spec scenario, where inner has its own
orIfError, the outer child (node 2) stays Pending, and f (spy 0) is
never invoked: only the inner handler (spy 9) observes the error. -/
theorem c5_splice_absorbs_handled_inner_errors
    (n : Nat) (s : St) (pid idx innerId : Nat) (args : List Value)
    (h : (nodeAt s innerId).errbackFns.length ≠ 0) :
    exec (n + 1) (Call.applyFn (Fn.spliceErr pid idx innerId) args) s = (s, Res.ok Value.undef) ∧
    ((nodeAt c5St 2).callbacked = false ∧ (nodeAt c5St 2).errbacked = false ∧
     (nodeAt c5St 2).aborted = false) ∧
    c5St.events = [Event.invoke 9 [Value.verror "E"]] := by
  refine ⟨?_, ?_, ?_⟩
  case _ =>
    rw [exec_succ]
    show execBody (exec n) (Call.applyFn (Fn.spliceErr pid idx innerId) args) s = _
    have hz : ((nodeAt s innerId).errbackFns.length == 0) = false := by
      cases hE : (nodeAt s innerId).errbackFns.length
      case zero => exact absurd hE h
      case succ k => rfl
    simp [execBody, hz]
  case _ =>
    simp only [c5St_eq]
    exact ⟨rfl, rfl, rfl⟩
  case _ =>
    simp only [c5St_eq]
    rfl

/-- Witness for C5 at a concrete input: the state after the C5 scenario
itself, where the inner deferred (node 0) holds a registered error
handler (spy 9). -/
theorem c5_splice_absorbs_handled_inner_errors_witness :
    (nodeAt c5St 0).errbackFns.length ≠ 0 ∧
    exec 1 (Call.applyFn (Fn.spliceErr 1 0 0) []) c5St = (c5St, Res.ok Value.undef) :=
  ⟨by simp only [c5St_eq]; decide,
   (c5_splice_absorbs_handled_inner_errors 0 c5St 1 0 0 []
     (by simp only [c5St_eq]; decide)).1⟩

/-! ## C6: the first-wins combinator -/

/-- Setup for C6: three pending inputs (nodes 0, 1, 2), the select
combinator over them (internal output node 3, adapter children 4, 5, 6,
returned identity child 7), onAbort listeners (spies 30 and 31) on the
inputs 0 and 1, and a then continuation (spy 0) on the returned
deferred. -/
def c6Setup : St × Nat :=
  let a := mkDeferred emptySt
  let b := mkDeferred a.1
  let c := mkDeferred b.1
  let p := mkSelect 60 [0, 1, 2] c.1
  (runSeq [Call.onAbortM 0 (Fn.spy 30), Call.onAbortM 1 (Fn.spy 31),
           Call.thenM p.2 (Fn.spy 0)] p.1, p.2)

/-- Input 2 succeeds with the string ok and the event loop drains. -/
def c6Final : St :=
  drain 60 30 (runSeq [Call.callbackM 2 [Value.vstr "ok"]] c6Setup.1)

/-- The state c6Setup computes to. -/
def c6SetupLit : St :=
  { heap := [
      { callbacked := false, callbackArgs := [], errbacked := false, errbackError := (Value.verror "errback called without error as argument!"), aborted := false, abortArgs := [], abortFns := [(Fn.spy 30)], nextLinks := [4], callbackFns := [(Fn.selectThen 0 0)], errbackFns := [], progressFns := [], progressDone := none, progressOutOf := none, partialFns := [], finallyFn := none, root := (some 0), branch := (some 0) },
      { callbacked := false, callbackArgs := [], errbacked := false, errbackError := (Value.verror "errback called without error as argument!"), aborted := false, abortArgs := [], abortFns := [(Fn.spy 31)], nextLinks := [5], callbackFns := [(Fn.selectThen 0 1)], errbackFns := [], progressFns := [], progressDone := none, progressOutOf := none, partialFns := [], finallyFn := none, root := (some 1), branch := (some 1) },
      { callbacked := false, callbackArgs := [], errbacked := false, errbackError := (Value.verror "errback called without error as argument!"), aborted := false, abortArgs := [], abortFns := [], nextLinks := [6], callbackFns := [(Fn.selectThen 0 2)], errbackFns := [], progressFns := [], progressDone := none, progressOutOf := none, partialFns := [], finallyFn := none, root := (some 2), branch := (some 2) },
      { callbacked := false, callbackArgs := [], errbacked := false, errbackError := (Value.verror "errback called without error as argument!"), aborted := false, abortArgs := [], abortFns := [], nextLinks := [7], callbackFns := [Fn.identityFn], errbackFns := [], progressFns := [], progressDone := none, progressOutOf := none, partialFns := [], finallyFn := none, root := (some 3), branch := (some 3) },
      { callbacked := false, callbackArgs := [], errbacked := false, errbackError := (Value.verror "errback called without error as argument!"), aborted := false, abortArgs := [], abortFns := [], nextLinks := [], callbackFns := [], errbackFns := [(Fn.selectErr 0)], progressFns := [], progressDone := none, progressOutOf := none, partialFns := [], finallyFn := none, root := (some 0), branch := (some 0) },
      { callbacked := false, callbackArgs := [], errbacked := false, errbackError := (Value.verror "errback called without error as argument!"), aborted := false, abortArgs := [], abortFns := [], nextLinks := [], callbackFns := [], errbackFns := [(Fn.selectErr 0)], progressFns := [], progressDone := none, progressOutOf := none, partialFns := [], finallyFn := none, root := (some 1), branch := (some 1) },
      { callbacked := false, callbackArgs := [], errbacked := false, errbackError := (Value.verror "errback called without error as argument!"), aborted := false, abortArgs := [], abortFns := [], nextLinks := [], callbackFns := [], errbackFns := [(Fn.selectErr 0)], progressFns := [], progressDone := none, progressOutOf := none, partialFns := [], finallyFn := none, root := (some 2), branch := (some 2) },
      { callbacked := false, callbackArgs := [], errbacked := false, errbackError := (Value.verror "errback called without error as argument!"), aborted := false, abortArgs := [], abortFns := [], nextLinks := [8], callbackFns := [(Fn.spy 0)], errbackFns := [], progressFns := [], progressDone := none, progressOutOf := none, partialFns := [], finallyFn := none, root := (some 3), branch := (some 3) },
      { callbacked := false, callbackArgs := [], errbacked := false, errbackError := (Value.verror "errback called without error as argument!"), aborted := false, abortArgs := [], abortFns := [], nextLinks := [], callbackFns := [], errbackFns := [], progressFns := [], progressDone := none, progressOutOf := none, partialFns := [], finallyFn := none, root := (some 3), branch := (some 3) }],
    tasks := [],
    whenCtxs := [],
    selectCtxs := [{ dId := 3, done := false, total := 3, inputs := [0, 1, 2], errored := false, winner := none }],
    defaultHandler := none,
    events := [] }

/-- The state c6Final computes to. -/
def c6FinalLit : St :=
  { heap := [
      { callbacked := false, callbackArgs := [], errbacked := false, errbackError := (Value.verror "errback called without error as argument!"), aborted := true, abortArgs := [], abortFns := [(Fn.spy 30)], nextLinks := [4], callbackFns := [(Fn.selectThen 0 0)], errbackFns := [], progressFns := [], progressDone := none, progressOutOf := none, partialFns := [], finallyFn := none, root := none, branch := none },
      { callbacked := false, callbackArgs := [], errbacked := false, errbackError := (Value.verror "errback called without error as argument!"), aborted := true, abortArgs := [], abortFns := [(Fn.spy 31)], nextLinks := [5], callbackFns := [(Fn.selectThen 0 1)], errbackFns := [], progressFns := [], progressDone := none, progressOutOf := none, partialFns := [], finallyFn := none, root := none, branch := none },
      { callbacked := true, callbackArgs := [(Value.vstr "ok")], errbacked := false, errbackError := (Value.verror "errback called without error as argument!"), aborted := false, abortArgs := [], abortFns := [], nextLinks := [6], callbackFns := [(Fn.selectThen 0 2)], errbackFns := [], progressFns := [], progressDone := none, progressOutOf := none, partialFns := [], finallyFn := none, root := none, branch := none },
      { callbacked := true, callbackArgs := [(Value.vstr "ok")], errbacked := false, errbackError := (Value.verror "errback called without error as argument!"), aborted := false, abortArgs := [], abortFns := [], nextLinks := [7], callbackFns := [Fn.identityFn], errbackFns := [], progressFns := [], progressDone := none, progressOutOf := none, partialFns := [], finallyFn := none, root := none, branch := none },
      { callbacked := false, callbackArgs := [], errbacked := false, errbackError := (Value.verror "errback called without error as argument!"), aborted := true, abortArgs := [], abortFns := [], nextLinks := [], callbackFns := [], errbackFns := [(Fn.selectErr 0)], progressFns := [], progressDone := none, progressOutOf := none, partialFns := [], finallyFn := none, root := none, branch := none },
      { callbacked := false, callbackArgs := [], errbacked := false, errbackError := (Value.verror "errback called without error as argument!"), aborted := true, abortArgs := [], abortFns := [], nextLinks := [], callbackFns := [], errbackFns := [(Fn.selectErr 0)], progressFns := [], progressDone := none, progressOutOf := none, partialFns := [], finallyFn := none, root := none, branch := none },
      { callbacked := true, callbackArgs := [Value.undef], errbacked := false, errbackError := (Value.verror "errback called without error as argument!"), aborted := false, abortArgs := [], abortFns := [], nextLinks := [], callbackFns := [], errbackFns := [(Fn.selectErr 0)], progressFns := [], progressDone := none, progressOutOf := none, partialFns := [], finallyFn := none, root := none, branch := none },
      { callbacked := true, callbackArgs := [(Value.vstr "ok")], errbacked := false, errbackError := (Value.verror "errback called without error as argument!"), aborted := false, abortArgs := [], abortFns := [], nextLinks := [8], callbackFns := [(Fn.spy 0)], errbackFns := [], progressFns := [], progressDone := none, progressOutOf := none, partialFns := [], finallyFn := none, root := none, branch := none },
      { callbacked := true, callbackArgs := [Value.undef], errbacked := false, errbackError := (Value.verror "errback called without error as argument!"), aborted := false, abortArgs := [], abortFns := [], nextLinks := [], callbackFns := [], errbackFns := [], progressFns := [], progressDone := none, progressOutOf := none, partialFns := [], finallyFn := none, root := none, branch := none }],
    tasks := [],
    whenCtxs := [],
    selectCtxs := [{ dId := 3, done := true, total := 3, inputs := [0, 1, 2], errored := false, winner := (some 2) }],
    defaultHandler := none,
    events := [(Event.invoke 30 []), (Event.invoke 31 []), (Event.invoke 0 [(Value.vstr "ok")])] }

theorem c6Setup_eq : c6Setup = (c6SetupLit, 7) := by decide!

theorem c6Final_eq : c6Final = c6FinalLit := by decide!

/-- Claim C6 (confirmed): when the first input of select succeeds, the
deferred returned by select resolves successfully with the same value
(and the then continuation spy 0 observes it), while every other input
transitions to Aborted with its onAbort listeners invoked; the winning
input is not aborted. -/
theorem c6_select_first_wins_aborts_losers :
    (nodeAt c6Final c6Setup.2).callbacked = true ∧
    (nodeAt c6Final c6Setup.2).callbackArgs = [Value.vstr "ok"] ∧
    (nodeAt c6Final 0).aborted = true ∧
    (nodeAt c6Final 1).aborted = true ∧
    (nodeAt c6Final 2).aborted = false ∧
    (nodeAt c6Final 2).callbacked = true ∧
    c6Final.events = [Event.invoke 30 [], Event.invoke 31 [],
      Event.invoke 0 [Value.vstr "ok"]] := by
  simp only [c6Final_eq, c6Setup_eq]
  exact ⟨rfl, rfl, rfl, rfl, rfl, rfl, rfl⟩

/-! ## C7: orIfError on an already Errbacked node -/

/-- Scenario for C7, first half: a fresh d; d.errback(e); full drain
(the error is unhandled, so the drain logs the fatal diagnostic and
rethrows, which surfaces as an uncaught event). -/
def c7Mid (e : Value) : St :=
  let p := mkDeferred emptySt
  drain 60 20 (runSeq [Call.errbackM 0 e] p.1)

/-- Scenario for C7, second half: d.orIfError(spy 0); full drain. -/
def c7St (e : Value) : St :=
  drain 60 20 (runSeq [Call.orIfErrorM 0 (Fn.spy 0)] (c7Mid e))

/-- The state c7Mid computes to. -/
def c7MidLit (e : Value) : St :=
  { heap := [
      { callbacked := false, callbackArgs := [], errbacked := true, errbackError := e, aborted := false, abortArgs := [], abortFns := [], nextLinks := [], callbackFns := [], errbackFns := [], progressFns := [], progressDone := none, progressOutOf := none, partialFns := [], finallyFn := none, root := (some 0), branch := (some 0) }],
    tasks := [],
    whenCtxs := [],
    selectCtxs := [],
    defaultHandler := none,
    events := [(Event.log "error not handled in errback or in the rest of the chain! rethrowing..."), (Event.uncaught e)] }

/-- The state c7St computes to. -/
def c7FinalLit (e : Value) : St :=
  { heap := [
      { callbacked := false, callbackArgs := [], errbacked := true, errbackError := e, aborted := false, abortArgs := [], abortFns := [], nextLinks := [], callbackFns := [], errbackFns := [(Fn.spy 0)], progressFns := [], progressDone := none, progressOutOf := none, partialFns := [], finallyFn := none, root := (some 0), branch := (some 0) }],
    tasks := [],
    whenCtxs := [],
    selectCtxs := [],
    defaultHandler := none,
    events := [(Event.log "error not handled in errback or in the rest of the chain! rethrowing..."), (Event.uncaught e), (Event.log "error in errback, will not continue! TypeError: errbackFunctions is not a function")] }

set_option maxHeartbeats 1000000 in
theorem c7Mid_eq (e : Value) : c7Mid e = c7MidLit e := rfl

set_option maxHeartbeats 1000000 in
theorem c7St_eq (e : Value) : c7St e = c7FinalLit e := by
  show drain 60 20 (runSeq [Call.orIfErrorM 0 (Fn.spy 0)] (c7Mid e)) = c7FinalLit e
  rw [c7Mid_eq]
  exact rfl

/-- Claim C7 (code bug witness): registering orIfError on an already
Errbacked node never invokes the new handler.  The handler is appended
to errbackFns and the replay closure of lines 355-364 is scheduled, but
that closure invokes errbackFunctions(errbackError) - the array itself
called as a function - so JavaScript raises a TypeError which the
enclosing try swallows with a console.log.  The spy is never invoked
although the registration succeeded. -/
theorem c7_late_orIfError_handler_never_invoked (e : Value) :
    (nodeAt (c7St e) 0).errbacked = true ∧
    (nodeAt (c7St e) 0).errbackFns = [Fn.spy 0] ∧
    invokeCount 0 (c7St e).events = 0 ∧
    (c7St e).events.getLast? =
      some (Event.log "error in errback, will not continue! TypeError: errbackFunctions is not a function") := by
  simp only [c7St_eq]
  exact ⟨rfl, rfl, rfl, rfl⟩

/-! ## C8: the all-join combinator after a first failure -/

/-- Setup for C8: inputs a (node 0) and b (node 1), output
out = when(a, b) (node 2, adapter children 3 and 4), with an orIfError
handler (spy 40), an onProgress listener (spy 41) and an
onPartialResult listener (spy 42) on out. -/
def c8Setup : St × Nat :=
  let a := mkDeferred emptySt
  let b := mkDeferred a.1
  let p := mkWhen 60 [0, 1] b.1
  (runSeq [Call.orIfErrorM p.2 (Fn.spy 40), Call.onProgressM p.2 (Fn.spy 41),
           Call.onPartialResultM p.2 (Fn.spy 42)] p.1, p.2)

/-- First input fails with the error E1 and the loop drains. -/
def c8Mid : St :=
  drain 60 30 (runSeq [Call.errbackM 0 (Value.verror "E1")] c8Setup.1)

/-- After the first failure the second input also fails, with E2. -/
def c8Fail : St :=
  drain 60 30 (runSeq [Call.errbackM 1 (Value.verror "E2")] c8Mid)

/-- After the first failure the second input succeeds, with 5. -/
def c8Succ : St :=
  drain 60 30 (runSeq [Call.callbackM 1 [Value.vnum 5]] c8Mid)

/-- The state c8Setup computes to. -/
def c8SetupLit : St :=
  { heap := [
      { callbacked := false, callbackArgs := [], errbacked := false, errbackError := (Value.verror "errback called without error as argument!"), aborted := false, abortArgs := [], abortFns := [], nextLinks := [3], callbackFns := [(Fn.whenThen 0 0)], errbackFns := [], progressFns := [], progressDone := none, progressOutOf := none, partialFns := [], finallyFn := none, root := (some 0), branch := (some 0) },
      { callbacked := false, callbackArgs := [], errbacked := false, errbackError := (Value.verror "errback called without error as argument!"), aborted := false, abortArgs := [], abortFns := [], nextLinks := [4], callbackFns := [(Fn.whenThen 0 1)], errbackFns := [], progressFns := [], progressDone := none, progressOutOf := none, partialFns := [], finallyFn := none, root := (some 1), branch := (some 1) },
      { callbacked := false, callbackArgs := [], errbacked := false, errbackError := (Value.verror "errback called without error as argument!"), aborted := false, abortArgs := [], abortFns := [], nextLinks := [], callbackFns := [], errbackFns := [(Fn.spy 40)], progressFns := [(Fn.spy 41)], progressDone := none, progressOutOf := none, partialFns := [(Fn.spy 42)], finallyFn := none, root := (some 2), branch := (some 2) },
      { callbacked := false, callbackArgs := [], errbacked := false, errbackError := (Value.verror "errback called without error as argument!"), aborted := false, abortArgs := [], abortFns := [], nextLinks := [], callbackFns := [], errbackFns := [(Fn.whenErr 0)], progressFns := [], progressDone := none, progressOutOf := none, partialFns := [], finallyFn := none, root := (some 0), branch := (some 0) },
      { callbacked := false, callbackArgs := [], errbacked := false, errbackError := (Value.verror "errback called without error as argument!"), aborted := false, abortArgs := [], abortFns := [], nextLinks := [], callbackFns := [], errbackFns := [(Fn.whenErr 0)], progressFns := [], progressDone := none, progressOutOf := none, partialFns := [], finallyFn := none, root := (some 1), branch := (some 1) }],
    tasks := [],
    whenCtxs := [{ dId := 2, returnValues := [none, none], total := 2, deferredsDone := 0 }],
    selectCtxs := [],
    defaultHandler := none,
    events := [] }

/-- The state c8Mid computes to. -/
def c8MidLit : St :=
  { heap := [
      { callbacked := false, callbackArgs := [], errbacked := true, errbackError := (Value.verror "E1"), aborted := false, abortArgs := [], abortFns := [], nextLinks := [3], callbackFns := [(Fn.whenThen 0 0)], errbackFns := [], progressFns := [], progressDone := none, progressOutOf := none, partialFns := [], finallyFn := none, root := none, branch := none },
      { callbacked := false, callbackArgs := [], errbacked := false, errbackError := (Value.verror "errback called without error as argument!"), aborted := false, abortArgs := [], abortFns := [], nextLinks := [4], callbackFns := [(Fn.whenThen 0 1)], errbackFns := [], progressFns := [], progressDone := none, progressOutOf := none, partialFns := [], finallyFn := none, root := (some 1), branch := (some 1) },
      { callbacked := false, callbackArgs := [], errbacked := true, errbackError := (Value.verror "E1"), aborted := false, abortArgs := [], abortFns := [], nextLinks := [], callbackFns := [], errbackFns := [(Fn.spy 40)], progressFns := [(Fn.spy 41)], progressDone := none, progressOutOf := none, partialFns := [(Fn.spy 42)], finallyFn := none, root := none, branch := none },
      { callbacked := false, callbackArgs := [], errbacked := true, errbackError := (Value.verror "E1"), aborted := false, abortArgs := [], abortFns := [], nextLinks := [], callbackFns := [], errbackFns := [(Fn.whenErr 0)], progressFns := [], progressDone := none, progressOutOf := none, partialFns := [], finallyFn := none, root := none, branch := none },
      { callbacked := false, callbackArgs := [], errbacked := false, errbackError := (Value.verror "errback called without error as argument!"), aborted := false, abortArgs := [], abortFns := [], nextLinks := [], callbackFns := [], errbackFns := [(Fn.whenErr 0)], progressFns := [], progressDone := none, progressOutOf := none, partialFns := [], finallyFn := none, root := (some 1), branch := (some 1) }],
    tasks := [],
    whenCtxs := [{ dId := 2, returnValues := [none, none], total := 2, deferredsDone := 0 }],
    selectCtxs := [],
    defaultHandler := none,
    events := [(Event.invoke 40 [(Value.verror "E1")])] }

/-- The state c8Fail computes to. -/
def c8FailLit : St :=
  { heap := [
      { callbacked := false, callbackArgs := [], errbacked := true, errbackError := (Value.verror "E1"), aborted := false, abortArgs := [], abortFns := [], nextLinks := [3], callbackFns := [(Fn.whenThen 0 0)], errbackFns := [], progressFns := [], progressDone := none, progressOutOf := none, partialFns := [], finallyFn := none, root := none, branch := none },
      { callbacked := false, callbackArgs := [], errbacked := true, errbackError := (Value.verror "E2"), aborted := false, abortArgs := [], abortFns := [], nextLinks := [4], callbackFns := [(Fn.whenThen 0 1)], errbackFns := [], progressFns := [], progressDone := none, progressOutOf := none, partialFns := [], finallyFn := none, root := none, branch := none },
      { callbacked := false, callbackArgs := [], errbacked := true, errbackError := (Value.verror "E1"), aborted := false, abortArgs := [], abortFns := [], nextLinks := [], callbackFns := [], errbackFns := [(Fn.spy 40)], progressFns := [(Fn.spy 41)], progressDone := none, progressOutOf := none, partialFns := [(Fn.spy 42)], finallyFn := none, root := none, branch := none },
      { callbacked := false, callbackArgs := [], errbacked := true, errbackError := (Value.verror "E1"), aborted := false, abortArgs := [], abortFns := [], nextLinks := [], callbackFns := [], errbackFns := [(Fn.whenErr 0)], progressFns := [], progressDone := none, progressOutOf := none, partialFns := [], finallyFn := none, root := none, branch := none },
      { callbacked := false, callbackArgs := [], errbacked := true, errbackError := (Value.verror "E2"), aborted := false, abortArgs := [], abortFns := [], nextLinks := [], callbackFns := [], errbackFns := [(Fn.whenErr 0)], progressFns := [], progressDone := none, progressOutOf := none, partialFns := [], finallyFn := none, root := none, branch := none }],
    tasks := [],
    whenCtxs := [{ dId := 2, returnValues := [none, none], total := 2, deferredsDone := 0 }],
    selectCtxs := [],
    defaultHandler := none,
    events := [(Event.invoke 40 [(Value.verror "E1")])] }

/-- The state c8Succ computes to. -/
def c8SuccLit : St :=
  { heap := [
      { callbacked := false, callbackArgs := [], errbacked := true, errbackError := (Value.verror "E1"), aborted := false, abortArgs := [], abortFns := [], nextLinks := [3], callbackFns := [(Fn.whenThen 0 0)], errbackFns := [], progressFns := [], progressDone := none, progressOutOf := none, partialFns := [], finallyFn := none, root := none, branch := none },
      { callbacked := true, callbackArgs := [(Value.vnum 5)], errbacked := false, errbackError := (Value.verror "errback called without error as argument!"), aborted := false, abortArgs := [], abortFns := [], nextLinks := [4], callbackFns := [(Fn.whenThen 0 1)], errbackFns := [], progressFns := [], progressDone := none, progressOutOf := none, partialFns := [], finallyFn := none, root := none, branch := none },
      { callbacked := false, callbackArgs := [], errbacked := true, errbackError := (Value.verror "E1"), aborted := false, abortArgs := [], abortFns := [], nextLinks := [], callbackFns := [], errbackFns := [(Fn.spy 40)], progressFns := [(Fn.spy 41)], progressDone := none, progressOutOf := none, partialFns := [(Fn.spy 42)], finallyFn := none, root := none, branch := none },
      { callbacked := false, callbackArgs := [], errbacked := true, errbackError := (Value.verror "E1"), aborted := false, abortArgs := [], abortFns := [], nextLinks := [], callbackFns := [], errbackFns := [(Fn.whenErr 0)], progressFns := [], progressDone := none, progressOutOf := none, partialFns := [], finallyFn := none, root := none, branch := none },
      { callbacked := true, callbackArgs := [Value.undef], errbacked := false, errbackError := (Value.verror "errback called without error as argument!"), aborted := false, abortArgs := [], abortFns := [], nextLinks := [], callbackFns := [], errbackFns := [(Fn.whenErr 0)], progressFns := [], progressDone := none, progressOutOf := none, partialFns := [], finallyFn := none, root := none, branch := none }],
    tasks := [],
    whenCtxs := [{ dId := 2, returnValues := [none, (some (Value.vnum 5))], total := 2, deferredsDone := 1 }],
    selectCtxs := [],
    defaultHandler := none,
    events := [(Event.invoke 40 [(Value.verror "E1")]), (Event.invoke 42 [(Value.varr (listToVL [Value.undef, (Value.vnum 5)]))]), (Event.invoke 41 [(Value.vnum 1), (Value.vnum 2)])] }

theorem c8Setup_eq : c8Setup = (c8SetupLit, 2) := by decide!

theorem c8Mid_eq : c8Mid = c8MidLit := by decide!

theorem c8Fail_eq : c8Fail = c8FailLit := by decide!

theorem c8Succ_eq : c8Succ = c8SuccLit := by decide!

/-- Claim C8 (counterexample): it is not true that after the first
input failure all subsequent input events are ignored with no further
observable effects on the output: when the second input succeeds after
the failure, the partial-result listener and the progress listener of
the output deferred are both invoked (with the aggregate array and the
(1, 2) progress tuple below), because partialResult and progress (lines
437-470) check only the aborted flag, not errbacked. -/
theorem c8_no_further_effects_false :
    (nodeAt c8Succ c8Setup.2).errbacked = true ∧
    c8Succ.events =
      [Event.invoke 40 [Value.verror "E1"],
       Event.invoke 42 [Value.varr (listToVL [Value.undef, Value.vnum 5])],
       Event.invoke 41 [Value.vnum 1, Value.vnum 2]] := by
  simp only [c8Succ_eq, c8Setup_eq]
  exact ⟨rfl, rfl⟩

/-- Claim C8 (amended): the output of when resolves with the first
input failure (its recorded error is E1 and its handler observes E1
exactly once); a later input failure is ignored (no further handler
invocation, recorded error unchanged); a later input success does not
change the terminal state of the output, but it does trigger the
partial-result and progress broadcasts of the output. -/
theorem c8_when_first_failure_wins_broadcasts_persist :
    (nodeAt c8Fail c8Setup.2).errbacked = true ∧
    (nodeAt c8Fail c8Setup.2).errbackError = Value.verror "E1" ∧
    c8Fail.events = [Event.invoke 40 [Value.verror "E1"]] ∧
    (nodeAt c8Succ c8Setup.2).errbacked = true ∧
    (nodeAt c8Succ c8Setup.2).errbackError = Value.verror "E1" ∧
    (nodeAt c8Succ c8Setup.2).callbacked = false ∧
    c8Succ.events =
      [Event.invoke 40 [Value.verror "E1"],
       Event.invoke 42 [Value.varr (listToVL [Value.undef, Value.vnum 5])],
       Event.invoke 41 [Value.vnum 1, Value.vnum 2]] := by
  simp only [c8Fail_eq, c8Succ_eq, c8Setup_eq]
  exact ⟨rfl, rfl, rfl, rfl, rfl, rfl, rfl⟩

/-! ## C9: onProgress replay of the last progress tuple -/

/-- Scenario for C9: d.progress(dv, ov) and then d.onProgress(spy 0),
all synchronous (the source schedules nothing here). -/
def c9St (dv ov : Value) : St :=
  let p := mkDeferred emptySt
  runSeq [Call.progressM 0 dv ov, Call.onProgressM 0 (Fn.spy 0)] p.1

/-- Claim C9 (code bug witness): after progress(dv, ov) a newly
registered onProgress listener is not invoked at all: the parameters of
this.progress = function (done, outOf) shadow the instance variables
done and outOf of the closure (lines 103-105 and 437-447), so the
broadcast tuple is never stored and the replay guard of onProgress
(line 455) never fires.  The listener is registered but the event log
stays empty. -/
theorem c9_progress_tuple_never_stored (dv ov : Value) :
    (nodeAt (c9St dv ov) 0).progressFns = [Fn.spy 0] ∧
    (nodeAt (c9St dv ov) 0).progressDone = none ∧
    (nodeAt (c9St dv ov) 0).progressOutOf = none ∧
    (c9St dv ov).events = [] :=
  ⟨rfl, rfl, rfl, rfl⟩

/-! ## C10: a finally hook preempts the success callbacks -/

/-- Scenario state for the C10 witness: d (node 0) with a then child
(node 1) and a finally hook (spy 2), immediately before runCallback. -/
def c10Pre : St :=
  let p := mkDeferred emptySt
  runSeq [Call.thenM 0 (Fn.spy 1), Call.andAtLastM 0 (Fn.spy 2)] p.1

/-- The state c10Pre computes to. -/
def c10PreLit : St :=
  { heap := [
      { callbacked := false, callbackArgs := [], errbacked := false, errbackError := (Value.verror "errback called without error as argument!"), aborted := false, abortArgs := [], abortFns := [], nextLinks := [1], callbackFns := [(Fn.spy 1)], errbackFns := [], progressFns := [], progressDone := none, progressOutOf := none, partialFns := [], finallyFn := (some (Fn.spy 2)), root := (some 0), branch := (some 0) },
      { callbacked := false, callbackArgs := [], errbacked := false, errbackError := (Value.verror "errback called without error as argument!"), aborted := false, abortArgs := [], abortFns := [], nextLinks := [], callbackFns := [], errbackFns := [], progressFns := [], progressDone := none, progressOutOf := none, partialFns := [], finallyFn := none, root := (some 0), branch := (some 0) }],
    tasks := [],
    whenCtxs := [],
    selectCtxs := [],
    defaultHandler := none,
    events := [] }

set_option maxHeartbeats 1000000 in
theorem c10Pre_eq : c10Pre = c10PreLit := rfl

/-- Claim C10 (confirmed): when runCallback executes on a node whose
finally hook is set (to an observation spy), the hook is invoked and
runCallback returns immediately (lines 189-192): the resulting state is
exactly the input state with the node marked Callbacked and the single
finally invocation appended - no success callback of the node runs and
no child node is touched, so no child deferred advances. -/
theorem c10_finally_preempts_callbacks
    (n : Nat) (s : St) (id : Nat) (args : List Value) (t : Nat)
    (hfin : (nodeAt s id).finallyFn = some (Fn.spy t))
    (hcb : (nodeAt s id).callbacked = false)
    (heb : (nodeAt s id).errbacked = false) :
    exec (n + 2) (Call.runCallback id args) s =
      (pushLog (updNode s id (fun nd => { nd with callbacked := true, callbackArgs := args }))
        (Event.invoke t []),
       Res.ok Value.undef) := by
  have hlt : id < s.heap.length := by
    by_contra hge
    have hdef : nodeAt s id = {} := by
      unfold nodeAt
      exact List.getD_eq_default _ _ (Nat.le_of_not_lt hge)
    rw [hdef] at hfin
    exact Option.noConfusion hfin
  have hfin2 : (nodeAt (updNode s id
      (fun nd => { nd with callbacked := true, callbackArgs := args })) id).finallyFn
      = some (Fn.spy t) := by
    unfold nodeAt updNode
    rw [List.getD_eq_getElem?_getD, List.getElem?_set_self (by simpa [nodeAt] using hlt)]
    simpa [nodeAt] using hfin
  rw [exec_succ]
  show execBody (exec (n + 1)) (Call.runCallback id args) s = _
  rw [execBody]
  rw [hcb, heb]
  simp only [Bool.false_eq_true, if_false]
  rw [hfin2]
  rw [exec_succ]
  show (match execBody (exec n) (Call.applyFn (Fn.spy t) [])
      (updNode s id fun nd => { nd with callbacked := true, callbackArgs := args }) with
    | (s2, Res.ok _) => (s2, Res.ok Value.undef)
    | other => other) = _
  rfl

/-- Witness for C10 at a concrete input: the scenario state c10Pre with
its finally hook spy 2, run through runCallback with argument 3. -/
theorem c10_finally_preempts_callbacks_witness :
    (nodeAt c10Pre 0).finallyFn = some (Fn.spy 2) ∧
    (nodeAt c10Pre 0).callbacked = false ∧
    (nodeAt c10Pre 0).errbacked = false ∧
    exec 2 (Call.runCallback 0 [Value.vnum 3]) c10Pre =
      (pushLog (updNode c10Pre 0
          (fun nd => { nd with callbacked := true, callbackArgs := [Value.vnum 3] }))
        (Event.invoke 2 []),
       Res.ok Value.undef) :=
  ⟨by simp only [c10Pre_eq]; rfl,
   by simp only [c10Pre_eq]; rfl,
   by simp only [c10Pre_eq]; rfl,
   c10_finally_preempts_callbacks 0 c10Pre 0 [Value.vnum 3] 2
     (by simp only [c10Pre_eq]; rfl) (by simp only [c10Pre_eq]; rfl)
     (by simp only [c10Pre_eq]; rfl)⟩


/-! ## C2: terminal states of a single node -/

/-- The external operations of claim C2 on a single node: callback
(succeed), errback (fail), abort, and one event-loop tick. -/
inductive SOp where
  | cb (args : List Value) : SOp
  | eb (e : Value) : SOp
  | ab (args : List Value) : SOp
  | tk : SOp

/-- One step of the C2 model: the operation applied to node 0 (fuel 12
is ample for a single node with no listeners and no children). -/
def sstep (s : St) : SOp → St
  | SOp.cb a => (exec 12 (Call.callbackM 0 a) s).1
  | SOp.eb e => (exec 12 (Call.errbackM 0 e) s).1
  | SOp.ab a => (exec 12 (Call.abortM 0 a) s).1
  | SOp.tk => tick 12 s

/-- Run a sequence of C2 operations on a freshly constructed node. -/
def srun (ops : List SOp) : St := ops.foldl sstep (mkDeferred emptySt).1

/-- Claim C2 (counterexample): calling callback(1), letting the
propagation tick run, then calling errback(E) and letting its tick run
leaves node 0 with BOTH the Callbacked and the Errbacked flags set:
errback (lines 264-279) and runErrback (lines 119-127) check errbacked
and aborted but never callbacked, so a node can enter a second terminal
state. -/
theorem c2_both_callbacked_and_errbacked :
    (nodeAt (srun [SOp.cb [Value.vnum 1], SOp.tk,
                   SOp.eb (Value.verror "E"), SOp.tk]) 0).callbacked = true ∧
    (nodeAt (srun [SOp.cb [Value.vnum 1], SOp.tk,
                   SOp.eb (Value.verror "E"), SOp.tk]) 0).errbacked = true := by
  exact ⟨by decide!, by decide!⟩

/-- The shape of every state reachable in the C2 model: one node with
no registered listeners, no children, no finally hook. -/
def bareSt (cb : Bool) (ca : List Value) (eb : Bool) (ee : Value) (ab : Bool)
    (aa : List Value) (rt br : Option Nat) (ts : List Task) (evs : List Event) : St :=
  { heap := [{ callbacked := cb, callbackArgs := ca, errbacked := eb, errbackError := ee,
               aborted := ab, abortArgs := aa, abortFns := [], nextLinks := [],
               callbackFns := [], errbackFns := [], progressFns := [], progressDone := none,
               progressOutOf := none, partialFns := [], finallyFn := none,
               root := rt, branch := br }],
    tasks := ts, whenCtxs := [], selectCtxs := [], defaultHandler := none, events := evs }

/-- The tasks the C2 model can have in flight. -/
def TaskOK (t : Task) : Prop :=
  t = Task.runCallbackStored 0 ∨ ∃ e, t = Task.runErrbackT 0 e

/-- Invariant of the C2 model: the state is a bare single-node state,
Errbacked and Aborted never hold together, and only the two resolution
tasks of node 0 are in flight. -/
def Rep (s : St) : Prop :=
  ∃ cb ca eb ee ab aa rt br ts evs,
    s = bareSt cb ca eb ee ab aa rt br ts evs ∧ (eb && ab) = false ∧ ∀ t ∈ ts, TaskOK t

theorem rep_init : Rep (mkDeferred emptySt).1 :=
  ⟨false, [], false, Value.verror "errback called without error as argument!",
   false, [], some 0, some 0, [], [], rfl, rfl, fun t ht => absurd ht (List.not_mem_nil t)⟩

theorem callbackM_step (a : List Value) (cb : Bool) (ca : List Value) (eb : Bool) (ee : Value)
    (ab : Bool) (aa : List Value) (rt br : Option Nat) (ts : List Task) (evs : List Event) :
    exec 12 (Call.callbackM 0 a) (bareSt cb ca eb ee ab aa rt br ts evs) =
      cond ab (bareSt cb ca eb ee ab aa rt br ts evs, Res.ok (Value.vdef 0))
        (cond eb (bareSt cb ca eb ee ab aa rt br ts evs, Res.ok (Value.vdef 0))
          (bareSt cb a eb ee ab aa rt br (ts ++ [Task.runCallbackStored 0]) evs,
           Res.ok (Value.vdef 0))) := by
  cases ab <;> cases eb <;> rfl

theorem errbackM_step (e : Value) (cb : Bool) (ca : List Value) (eb : Bool) (ee : Value)
    (ab : Bool) (aa : List Value) (rt br : Option Nat) (ts : List Task) (evs : List Event) :
    exec 12 (Call.errbackM 0 e) (bareSt cb ca eb ee ab aa rt br ts evs) =
      cond ab (bareSt cb ca eb ee ab aa rt br ts evs, Res.ok (Value.vdef 0))
        (cond eb (bareSt cb ca eb ee ab aa rt br ts
            (evs ++ [Event.log "Deferred is already errbacked, will not run errback!"]),
           Res.ok (Value.vdef 0))
          (bareSt cb ca eb ee ab aa rt br (ts ++ [Task.runErrbackT 0 e]) evs,
           Res.ok (Value.vdef 0))) := by
  cases ab <;> cases eb <;> rfl

theorem abortM_step (a : List Value) (cb : Bool) (ca : List Value) (eb : Bool) (ee : Value)
    (ab : Bool) (aa : List Value) (rt br : Option Nat) (ts : List Task) (evs : List Event) :
    exec 12 (Call.abortM 0 a) (bareSt cb ca eb ee ab aa rt br ts evs) =
      cond ab (bareSt cb ca eb ee ab aa rt br ts
          (evs ++ [Event.log "Deferred has already been aborted, cannot abort again!"]),
         Res.ok (Value.vdef 0))
        (cond cb (bareSt cb ca eb ee ab aa rt br ts
            (evs ++ [Event.log "Deferred has already been callbacked, cannot abort after that!"]),
           Res.ok (Value.vdef 0))
          (cond eb (bareSt cb ca eb ee ab aa rt br ts
              (evs ++ [Event.log "Deferred has already been errbacked, cannot abort after that!"]),
             Res.ok (Value.vdef 0))
            (bareSt cb ca eb ee true a none none ts evs, Res.ok (Value.vdef 0)))) := by
  cases ab <;> cases cb <;> cases eb <;> rfl

theorem tick_nil (cb : Bool) (ca : List Value) (eb : Bool) (ee : Value)
    (ab : Bool) (aa : List Value) (rt br : Option Nat) (evs : List Event) :
    tick 12 (bareSt cb ca eb ee ab aa rt br [] evs) =
      bareSt cb ca eb ee ab aa rt br [] evs := rfl

theorem tick_runCallbackStored (cb : Bool) (ca : List Value) (eb : Bool) (ee : Value)
    (ab : Bool) (aa : List Value) (rt br : Option Nat) (ts : List Task) (evs : List Event) :
    tick 12 (bareSt cb ca eb ee ab aa rt br (Task.runCallbackStored 0 :: ts) evs) =
      cond cb (bareSt cb ca eb ee ab aa rt br ts
          (evs ++ [Event.uncaught (Value.verror "Deferred has already been callbacked!")]))
        (cond eb (bareSt cb ca eb ee ab aa rt br ts evs)
          (bareSt true ca eb ee ab aa none none ts evs)) := by
  cases cb <;> cases eb <;> rfl

theorem tick_runErrbackT (e : Value) (cb : Bool) (ca : List Value) (eb : Bool) (ee : Value)
    (ab : Bool) (aa : List Value) (rt br : Option Nat) (ts : List Task) (evs : List Event) :
    tick 12 (bareSt cb ca eb ee ab aa rt br (Task.runErrbackT 0 e :: ts) evs) =
      cond eb (bareSt cb ca eb ee ab aa rt br ts evs)
        (cond ab (bareSt cb ca eb ee ab aa rt br ts evs)
          (bareSt cb ca true e ab aa rt br ts
            ((evs ++ [Event.log "error not handled in errback or in the rest of the chain! rethrowing..."])
              ++ [Event.uncaught e]))) := by
  cases eb <;> cases ab <;> rfl

/-- Preservation: one C2 operation keeps the invariant, and each of the
three terminal flags only ever grows. -/
theorem rep_step (s : St) (op : SOp) (h : Rep s) :
    Rep (sstep s op) ∧
    (nodeAt s 0).callbacked ≤ (nodeAt (sstep s op) 0).callbacked ∧
    (nodeAt s 0).errbacked ≤ (nodeAt (sstep s op) 0).errbacked ∧
    (nodeAt s 0).aborted ≤ (nodeAt (sstep s op) 0).aborted := by
  obtain ⟨cb, ca, eb, ee, ab, aa, rt, br, ts, evs, hs, hx, hts⟩ := h
  subst hs
  have htsApp : ∀ (tk : Task), TaskOK tk → ∀ u ∈ ts ++ [tk], TaskOK u := by
    intro tk hk u hu
    rcases List.mem_append.1 hu with h1 | h1
    · exact hts u h1
    · rw [List.mem_singleton.1 h1]
      exact hk
  cases op with
  | cb a =>
    simp only [sstep]
    rw [callbackM_step]
    cases ab <;> cases eb <;>
      first
      | exact absurd hx (by decide)
      | exact ⟨⟨_, _, _, _, _, _, _, _, _, _, rfl, by decide, hts⟩,
          le_refl _, le_refl _, le_refl _⟩
      | exact ⟨⟨_, _, _, _, _, _, _, _, _, _, rfl, by decide,
          htsApp _ (Or.inl rfl)⟩, le_refl _, le_refl _, le_refl _⟩
  | eb e =>
    simp only [sstep]
    rw [errbackM_step]
    cases ab <;> cases eb <;>
      first
      | exact absurd hx (by decide)
      | exact ⟨⟨_, _, _, _, _, _, _, _, _, _, rfl, by decide, hts⟩,
          le_refl _, le_refl _, le_refl _⟩
      | exact ⟨⟨_, _, _, _, _, _, _, _, _, _, rfl, by decide,
          htsApp _ (Or.inr ⟨e, rfl⟩)⟩, le_refl _, le_refl _, le_refl _⟩
  | ab a =>
    simp only [sstep]
    rw [abortM_step]
    cases ab <;> cases cb <;> cases eb <;>
      first
      | exact absurd hx (by decide)
      | exact ⟨⟨_, _, _, _, _, _, _, _, _, _, rfl, by decide, hts⟩,
          le_refl _, le_refl _, le_refl _⟩
      | exact ⟨⟨_, _, _, _, _, _, _, _, _, _, rfl, by decide, hts⟩,
          le_refl _, le_refl _, Bool.le_true _⟩
  | tk =>
    simp only [sstep]
    cases ts with
    | nil =>
      rw [tick_nil]
      exact ⟨⟨_, _, _, _, _, _, _, _, _, _, rfl, hx, hts⟩, le_refl _, le_refl _, le_refl _⟩
    | cons t ts2 =>
      have hts2 : ∀ u ∈ ts2, TaskOK u := fun u hu => hts u (List.mem_cons_of_mem t hu)
      rcases hts t (List.mem_cons_self t ts2) with h1 | ⟨e, h1⟩ <;> subst h1
      · rw [tick_runCallbackStored]
        cases cb <;> cases eb <;>
          first
          | exact absurd hx (by decide)
          | exact ⟨⟨_, _, _, _, _, _, _, _, _, _, rfl, hx, hts2⟩,
              le_refl _, le_refl _, le_refl _⟩
          | exact ⟨⟨_, _, _, _, _, _, _, _, _, _, rfl, hx, hts2⟩,
              Bool.false_le _, le_refl _, le_refl _⟩
      · rw [tick_runErrbackT]
        cases eb <;> cases ab <;>
          first
          | exact absurd hx (by decide)
          | exact ⟨⟨_, _, _, _, _, _, _, _, _, _, rfl, by decide, hts2⟩,
              le_refl _, le_refl _, le_refl _⟩
          | exact ⟨⟨_, _, _, _, _, _, _, _, _, _, rfl, by decide, hts2⟩,
              le_refl _, Bool.false_le _, le_refl _⟩

theorem rep_srun (ops : List SOp) : Rep (srun ops) := by
  have main : ∀ (l : List SOp) (s : St), Rep s → Rep (l.foldl sstep s) := by
    intro l
    induction l with
    | nil => exact fun s h => h
    | cons op rest ih =>
      intro s h
      exact ih (sstep s op) (rep_step s op h).1
  exact main ops _ rep_init

/-- Claim C2 (amended): for every sequence of callback, errback, abort
and tick operations on a single node, the Errbacked and Aborted flags
never both hold, and each of the three terminal flags is monotone (once
set by some prefix it stays set, so each is entered at most once).
The original claim is stronger - full mutual exclusion of all three
terminal states - and fails: callback then errback sets both Callbacked
and Errbacked (see the counterexample). -/
theorem c2_errback_abort_exclusive_and_flags_monotone (ops : List SOp) (op : SOp) :
    ((nodeAt (srun ops) 0).errbacked && (nodeAt (srun ops) 0).aborted) = false ∧
    (nodeAt (srun ops) 0).callbacked ≤ (nodeAt (srun (ops ++ [op])) 0).callbacked ∧
    (nodeAt (srun ops) 0).errbacked ≤ (nodeAt (srun (ops ++ [op])) 0).errbacked ∧
    (nodeAt (srun ops) 0).aborted ≤ (nodeAt (srun (ops ++ [op])) 0).aborted := by
  have hrep := rep_srun ops
  have hstep := rep_step (srun ops) op hrep
  have happ : srun (ops ++ [op]) = sstep (srun ops) op := by
    unfold srun
    rw [List.foldl_append]
    rfl
  refine ⟨?_, ?_, ?_, ?_⟩
  · obtain ⟨cb, ca, eb, ee, ab, aa, rt, br, ts, evs, hs, hx, _⟩ := hrep
    rw [hs]
    exact hx
  · rw [happ]; exact hstep.2.1
  · rw [happ]; exact hstep.2.2.1
  · rw [happ]; exact hstep.2.2.2


/-! ## C4: the branch pointer discipline of then

The development below studies heaps reachable from a single fresh
Deferred by then calls alone (the registered callbacks never run and
play no role in the branch bookkeeping, so they are fixed to a spy). -/

/-- One then call on node x.  The fuel is ample for the rearrangement
walk of any heap of this size (shown in setBranch_fuel below). -/
def thenOp (x : Nat) (s : St) : St :=
  (exec (2 ^ (s.heap.length + 2) + 4) (Call.thenM x (Fn.spy 0)) s).1

/-- Run a sequence of then calls (invalid targets are skipped) on a
freshly constructed Deferred. -/
def thenRun (ops : List Nat) : St :=
  ops.foldl (fun s x => if x < s.heap.length then thenOp x s else s) (mkDeferred emptySt).1

/-- Claim C4 (counterexample): after d.then(f); d2.then(g1);
d2.then(g2) (nodes: d = 0, d2 = 1, children 2 and 3), node 0 has
exactly one child, node 1, yet node 1 has branch = node 1 itself rather
than node 0's branch: the rearrangement of lines 281-295 walks from the
branch head and makes the mid-chain node its own branch head, so the
claimed invariant (child branch equals itself iff the parent has at
least two children, otherwise equals the parent branch) is violated
after the third then. -/
theorem c4_branch_invariant_violated :
    (nodeAt (thenRun [0, 1, 1]) 0).nextLinks = [1] ∧
    (nodeAt (thenRun [0, 1, 1]) 0).branch = some 0 ∧
    (nodeAt (thenRun [0, 1, 1]) 1).branch = some 1 ∧
    ¬((nodeAt (thenRun [0, 1, 1]) 1).branch = (nodeAt (thenRun [0, 1, 1]) 0).branch) := by
  refine ⟨by decide!, by decide!, by decide!, ?_⟩
  intro h
  rw [show (nodeAt (thenRun [0, 1, 1]) 1).branch = some 1 from by decide!,
      show (nodeAt (thenRun [0, 1, 1]) 0).branch = some 0 from by decide!] at h
  exact Option.noConfusion h (fun h1 => Nat.noConfusion h1)

/-! Access lemmas for the heap. -/

theorem heapLen_updNode (s : St) (i : Nat) (f : Node → Node) :
    (updNode s i f).heap.length = s.heap.length := by
  simp [updNode]

theorem nodeAt_oob (s : St) (v : Nat) (h : s.heap.length ≤ v) : nodeAt s v = {} := by
  unfold nodeAt
  exact List.getD_eq_default _ _ h

theorem nodeAt_updNode_same (s : St) (i : Nat) (f : Node → Node) (h : i < s.heap.length) :
    nodeAt (updNode s i f) i = f (nodeAt s i) := by
  unfold nodeAt updNode
  rw [List.getD_eq_getElem?_getD, List.getElem?_set_self (by simpa [nodeAt] using h)]
  rfl

theorem nodeAt_updNode_ne (s : St) (i v : Nat) (f : Node → Node) (h : v ≠ i) :
    nodeAt (updNode s i f) v = nodeAt s v := by
  unfold nodeAt updNode
  rw [List.getD_eq_getElem?_getD, List.getElem?_set_ne (fun he => h he.symm),
      ← List.getD_eq_getElem?_getD]

theorem updNode_oob (s : St) (i : Nat) (f : Node → Node) (h : s.heap.length ≤ i) :
    updNode s i f = s := by
  unfold updNode
  rw [List.set_eq_of_length_le h]

theorem nodeAt_push_lt (s : St) (c : Node) (v : Nat) (h : v < s.heap.length) :
    nodeAt { s with heap := s.heap ++ [c] } v = nodeAt s v := by
  unfold nodeAt
  simp only [List.getD_eq_getElem?_getD]
  rw [List.getElem?_append, if_pos h]

theorem nodeAt_push_self (s : St) (c : Node) :
    nodeAt { s with heap := s.heap ++ [c] } s.heap.length = c := by
  unfold nodeAt
  rw [List.getD_eq_getElem?_getD]
  rw [List.getElem?_concat_length]
  rfl

theorem nodeAt_push_gt (s : St) (c : Node) (v : Nat) (h : s.heap.length < v) :
    nodeAt { s with heap := s.heap ++ [c] } v = {} := by
  apply nodeAt_oob
  simp only [List.length_append, List.length_cons, List.length_nil]
  omega


/-- The child list of node i. -/
def kidsOf (s : St) (i : Nat) : List Nat := (nodeAt s i).nextLinks

/-- Structural facts about all child lists: every child is strictly
above its parent and inside the heap, and no node repeats a child. -/
def HeapKids (s : St) : Prop :=
  ∀ i, (∀ a ∈ kidsOf s i, i < a ∧ a < s.heap.length) ∧ (kidsOf s i).Nodup

/-- The rearrangement walk (setBranch) changes only branch fields: same
heap length, same state outside the heap, and each node equal to the
old one up to its branch pointer. -/
def SameShape (s s' : St) : Prop :=
  s'.heap.length = s.heap.length ∧
  s' = { s with heap := s'.heap } ∧
  ∀ v, nodeAt s' v = { nodeAt s v with branch := (nodeAt s' v).branch }

theorem sameShape_refl (s : St) : SameShape s s := ⟨rfl, rfl, fun _ => rfl⟩

theorem sameShape_trans {s s' s'' : St} (h1 : SameShape s s') (h2 : SameShape s' s'') :
    SameShape s s'' := by
  obtain ⟨hl1, he1, hn1⟩ := h1
  obtain ⟨hl2, he2, hn2⟩ := h2
  refine ⟨hl2.trans hl1, ?_, ?_⟩
  · rw [he2, he1]
  · intro v
    rw [hn2 v, hn1 v]

theorem sameShape_updBranch (s : St) (n : Nat) (b : Option Nat) :
    SameShape s (updNode s n (fun nd => { nd with branch := b })) := by
  refine ⟨heapLen_updNode s n _, rfl, ?_⟩
  intro v
  by_cases hv : v = n
  · subst hv
    by_cases hlt : v < s.heap.length
    · rw [nodeAt_updNode_same s v _ hlt]
    · rw [updNode_oob s v _ (Nat.le_of_not_lt hlt)]
  · rw [nodeAt_updNode_ne s n v _ hv]

theorem kidsOf_sameShape {s s' : St} (h : SameShape s s') (v : Nat) :
    kidsOf s' v = kidsOf s v := by
  unfold kidsOf
  rw [h.2.2 v]

theorem heapKids_of_sameShape {s s' : St} (h : SameShape s s') (hk : HeapKids s) :
    HeapKids s' := by
  intro i
  rw [kidsOf_sameShape h, h.1]
  exact hk i

/-- Unfolding lemma for one step of setBranch. -/
theorem exec_setBranch_step (f : Nat) (n b : Nat) (s : St) :
    exec (f + 1) (Call.setBranch n b) s =
      (match (nodeAt (updNode s n (fun nd => { nd with branch := some b })) n).nextLinks with
       | [c] => exec f (Call.setBranch c b)
           (updNode s n (fun nd => { nd with branch := some b }))
       | _ => exec f (Call.setBranchKids
           ((nodeAt (updNode s n (fun nd => { nd with branch := some b })) n).nextLinks))
           (updNode s n (fun nd => { nd with branch := some b }))) := by
  rw [exec_succ]
  show execBody (exec f) (Call.setBranch n b) s = _
  rw [execBody]
  rcases (nodeAt (updNode s n (fun nd => { nd with branch := some b })) n).nextLinks with
    _ | ⟨c, _ | ⟨d, rest⟩⟩ <;> rfl

/-- Unfolding lemma for one step of setBranchKids. -/
theorem exec_setBranchKids_nil (f : Nat) (s : St) :
    exec (f + 1) (Call.setBranchKids []) s = (s, Res.ok Value.undef) := rfl

theorem exec_setBranchKids_cons (f : Nat) (c : Nat) (rest : List Nat) (s : St) :
    exec (f + 1) (Call.setBranchKids (c :: rest)) s =
      (match exec f (Call.setBranch c c) s with
       | (s2, Res.ok _) => exec f (Call.setBranchKids rest) s2
       | other => other) := rfl

/-- The walk only rewrites branch pointers (frame property). -/
theorem walk_frame : ∀ fuel : Nat,
    (∀ n b s, SameShape s (exec fuel (Call.setBranch n b) s).1) ∧
    (∀ ids s, SameShape s (exec fuel (Call.setBranchKids ids) s).1) := by
  intro fuel
  induction fuel with
  | zero =>
    constructor
    · intro n b s
      rw [exec_zero]
      exact sameShape_refl s
    · intro ids s
      rw [exec_zero]
      exact sameShape_refl s
  | succ f ih =>
    constructor
    · intro n b s
      rw [exec_setBranch_step]
      have hbase := sameShape_updBranch s n (some b)
      rcases (nodeAt (updNode s n (fun nd => { nd with branch := some b })) n).nextLinks with
        _ | ⟨c, _ | ⟨d, rest⟩⟩
      · exact sameShape_trans hbase (ih.2 _ _)
      · exact sameShape_trans hbase (ih.1 _ _ _)
      · exact sameShape_trans hbase (ih.2 _ _)
    · intro ids s
      cases ids with
      | nil =>
        rw [exec_setBranchKids_nil]
        exact sameShape_refl s
      | cons c rest =>
        rw [exec_setBranchKids_cons]
        rcases hrun : exec f (Call.setBranch c c) s with ⟨s2, r⟩
        have h1 : SameShape s s2 := by
          have := ih.1 c c s
          rw [hrun] at this
          exact this
        cases r with
        | ok v => exact sameShape_trans h1 (ih.2 rest s2)
        | thrown e => exact h1
        | out => exact h1

/-- Length bound for a duplicate-free list inside an open interval. -/
theorem nodup_bounded_length (ids : List Nat) (n L : Nat) (hnd : ids.Nodup)
    (hb : ∀ a ∈ ids, n < a ∧ a < L) : ids.length ≤ L - n - 1 := by
  classical
  have hsub : ids.toFinset ⊆ Finset.Ioo n L := by
    intro a ha
    rcases hb a (List.mem_toFinset.1 ha) with ⟨h1, h2⟩
    exact Finset.mem_Ioo.2 ⟨h1, h2⟩
  have hc := Finset.card_le_card hsub
  rwa [List.toFinset_card_of_nodup hnd, Nat.card_Ioo] at hc

/-- Fuel adequacy: with fuel at least 2 ^ (heapsize - n) * 2 the walk
terminates normally (it has no throwing paths). -/
theorem walk_fuel : ∀ fuel : Nat,
    (∀ n b s, HeapKids s → 2 ^ (s.heap.length - n) * 2 ≤ fuel →
      ∃ s', exec fuel (Call.setBranch n b) s = (s', Res.ok Value.undef)) ∧
    (∀ ids s, HeapKids s → ids.length < fuel →
      (∀ k a, ids.get? k = some a → 2 ^ (s.heap.length - a) * 2 + k + 1 ≤ fuel) →
      ∃ s', exec fuel (Call.setBranchKids ids) s = (s', Res.ok Value.undef)) := by
  intro fuel
  induction fuel with
  | zero =>
    constructor
    · intro n b s _ hf
      have h1 : (1 : Nat) ≤ 2 ^ (s.heap.length - n) := Nat.one_le_two_pow
      exact absurd hf (by omega)
    · intro ids s _ hlen _
      exact absurd hlen (Nat.not_lt_zero _)
  | succ f ih =>
    constructor
    · intro n b s hk hf
      rw [exec_setBranch_step]
      set s1 := updNode s n (fun nd => { nd with branch := some b }) with hs1
      have hshape : SameShape s s1 := sameShape_updBranch s n (some b)
      have hk1 : HeapKids s1 := heapKids_of_sameShape hshape hk
      have hlen1 : s1.heap.length = s.heap.length := hshape.1
      have hkids : ∀ a ∈ (nodeAt s1 n).nextLinks, n < a ∧ a < s.heap.length := by
        intro a ha
        have := (hk1 n).1 a ha
        rwa [hlen1] at this
      have hnodup : ((nodeAt s1 n).nextLinks).Nodup := (hk1 n).2
      have hpow1 : (1 : Nat) ≤ 2 ^ (s.heap.length - n) := Nat.one_le_two_pow
      rcases hks : (nodeAt s1 n).nextLinks with _ | ⟨c, _ | ⟨d, rest⟩⟩
      · refine ih.2 [] s1 hk1 ?_ ?_
        · simp only [List.length_nil]
          omega
        · intro k a hka
          simp at hka
      · -- single child: recurse with the same branch argument
        have hc : n < c ∧ c < s.heap.length := hkids c (by rw [hks]; exact List.mem_cons_self c [])
        apply ih.1 c b s1 hk1
        rw [hlen1]
        have hexp : s.heap.length - c + 1 ≤ s.heap.length - n := by omega
        have hmono : 2 ^ (s.heap.length - c + 1) ≤ 2 ^ (s.heap.length - n) :=
          Nat.pow_le_pow_right (by omega) hexp
        have : 2 ^ (s.heap.length - c) * 2 = 2 ^ (s.heap.length - c + 1) := by
          rw [Nat.pow_succ]
        omega
      · -- two or more children: the kids loop
        have hlenb : (c :: d :: rest).length ≤ s.heap.length - n - 1 := by
          have := nodup_bounded_length ((nodeAt s1 n).nextLinks) n s.heap.length hnodup hkids
          rwa [hks] at this
        have hsz : s.heap.length - n < 2 ^ (s.heap.length - n) := Nat.lt_two_pow _
        refine ih.2 (c :: d :: rest) s1 hk1 ?_ ?_
        · simp only [List.length_cons] at hlenb ⊢
          omega
        · intro k a hka
          have hmem : a ∈ (nodeAt s1 n).nextLinks := by
            rw [hks]
            exact List.get?_mem hka
          obtain ⟨hkidx, -⟩ := List.get?_eq_some.1 hka
          have ha : n < a ∧ a < s.heap.length := hkids a hmem
          have hexp : s.heap.length - a + 1 ≤ s.heap.length - n := by omega
          have hmono : 2 ^ (s.heap.length - a + 1) ≤ 2 ^ (s.heap.length - n) :=
            Nat.pow_le_pow_right (by omega) hexp
          have hpowa : 2 ^ (s.heap.length - a) * 2 = 2 ^ (s.heap.length - a + 1) := by
            rw [Nat.pow_succ]
          rw [hlen1]
          simp only [List.length_cons] at hlenb hkidx
          omega
    · intro ids s hk hlen hf
      cases ids with
      | nil => exact ⟨s, exec_setBranchKids_nil f s⟩
      | cons c rest =>
        have hc := hf 0 c rfl
        have hpow1 : (1 : Nat) ≤ 2 ^ (s.heap.length - c) := Nat.one_le_two_pow
        obtain ⟨s2, hs2⟩ := ih.1 c c s hk (by omega)
        have hshape : SameShape s s2 := by
          have := (walk_frame f).1 c c s
          rwa [hs2] at this
        obtain ⟨s3, hs3⟩ := ih.2 rest s2 (heapKids_of_sameShape hshape hk)
          (by simp only [List.length_cons] at hlen; omega)
          (by
            intro k a hka
            have := hf (k + 1) a hka
            rw [hshape.1]
            omega)
        refine ⟨s3, ?_⟩
        rw [exec_setBranchKids_cons, hs2]
        exact hs3


/-- Callback/child correspondence: every then pushes one child and one
callback, so the two arrays stay equal in length. -/
def cbLen (s : St) : Prop :=
  ∀ i, (nodeAt s i).callbackFns.length = (kidsOf s i).length

/-- Branch sanity: every live node has a branch pointer at or below its
own index, and a branch head that is not the node itself has children. -/
def branchOK (s : St) : Prop :=
  ∀ i, i < s.heap.length →
    ∃ b, b ≤ i ∧ (nodeAt s i).branch = some b ∧ (b = i ∨ kidsOf s b ≠ [])

/-- The invariant of then-only reachable heaps. -/
def WF (s : St) : Prop := HeapKids s ∧ cbLen s ∧ branchOK s

/-- A node that is nobody's only child and is already its own branch
head keeps that branch through the rearrangement walk. -/
theorem walk_keeps_fresh : ∀ fuel : Nat,
    (∀ n b m s, (∀ i, m ∈ kidsOf s i → 2 ≤ (kidsOf s i).length) →
      (n = m → b = m) → (nodeAt s m).branch = some m →
      (nodeAt (exec fuel (Call.setBranch n b) s).1 m).branch = some m) ∧
    (∀ ids m s, (∀ i, m ∈ kidsOf s i → 2 ≤ (kidsOf s i).length) →
      (nodeAt s m).branch = some m →
      (nodeAt (exec fuel (Call.setBranchKids ids) s).1 m).branch = some m) := by
  intro fuel
  induction fuel with
  | zero =>
    refine ⟨fun n b m s _ _ h => ?_, fun ids m s _ h => ?_⟩
    · rw [exec_zero]
      exact h
    · rw [exec_zero]
      exact h
  | succ f ih =>
    constructor
    · intro n b m s hdeg hnb hm
      rw [exec_setBranch_step]
      set s1 := updNode s n (fun nd => { nd with branch := some b }) with hs1def
      have hshape : SameShape s s1 := sameShape_updBranch s n (some b)
      have hm1 : (nodeAt s1 m).branch = some m := by
        by_cases hnm : n = m
        · subst hnm
          have hb : b = n := hnb rfl
          subst hb
          by_cases hlt : b < s.heap.length
          · rw [hs1def, nodeAt_updNode_same s b _ hlt]
          · rw [hs1def, updNode_oob s b _ (Nat.le_of_not_lt hlt)]
            exact hm
        · rw [hs1def, nodeAt_updNode_ne s n m _ (fun he => hnm he.symm)]
          exact hm
      have hdeg1 : ∀ i, m ∈ kidsOf s1 i → 2 ≤ (kidsOf s1 i).length := by
        intro i hi
        rw [kidsOf_sameShape hshape] at hi ⊢
        exact hdeg i hi
      rcases hks : (nodeAt s1 n).nextLinks with _ | ⟨c, _ | ⟨d, rest⟩⟩
      · exact ih.2 [] m s1 hdeg1 hm1
      · refine ih.1 c b m s1 hdeg1 ?_ hm1
        intro hcm
        exfalso
        have hkm : kidsOf s1 n = [m] := by
          unfold kidsOf
          rw [hks, hcm]
        have hmem : m ∈ kidsOf s1 n := by
          rw [hkm]
          exact List.mem_cons_self m []
        have h2 := hdeg1 n hmem
        rw [hkm] at h2
        exact absurd h2 (by simp)
      · exact ih.2 (c :: d :: rest) m s1 hdeg1 hm1
    · intro ids m s hdeg hm
      cases ids with
      | nil =>
        rw [exec_setBranchKids_nil]
        exact hm
      | cons c rest =>
        rw [exec_setBranchKids_cons]
        rcases hrun : exec f (Call.setBranch c c) s with ⟨s2, r⟩
        have hshape : SameShape s s2 := by
          have := (walk_frame f).1 c c s
          rwa [hrun] at this
        have hm2 : (nodeAt s2 m).branch = some m := by
          have := ih.1 c c m s hdeg (fun h => h) hm
          rwa [hrun] at this
        have hdeg2 : ∀ i, m ∈ kidsOf s2 i → 2 ≤ (kidsOf s2 i).length := by
          intro i hi
          rw [kidsOf_sameShape hshape] at hi ⊢
          exact hdeg i hi
        cases r with
        | ok v => exact ih.2 rest m s2 hdeg2 hm2
        | thrown e => exact hm2
        | out => exact hm2


/-- Everything the walk writes into a branch field is a head at or below
the node, and a head other than the node itself has children. -/
theorem walk_writes : ∀ fuel : Nat,
    (∀ n b s, HeapKids s → b ≤ n → (b = n ∨ kidsOf s b ≠ []) → ∀ v,
      (nodeAt (exec fuel (Call.setBranch n b) s).1 v).branch = (nodeAt s v).branch ∨
      ∃ w, (nodeAt (exec fuel (Call.setBranch n b) s).1 v).branch = some w ∧ w ≤ v ∧
        (w = v ∨ kidsOf s w ≠ [])) ∧
    (∀ ids s, HeapKids s → ∀ v,
      (nodeAt (exec fuel (Call.setBranchKids ids) s).1 v).branch = (nodeAt s v).branch ∨
      ∃ w, (nodeAt (exec fuel (Call.setBranchKids ids) s).1 v).branch = some w ∧ w ≤ v ∧
        (w = v ∨ kidsOf s w ≠ [])) := by
  intro fuel
  induction fuel with
  | zero =>
    refine ⟨fun n b s _ _ _ v => ?_, fun ids s _ v => ?_⟩
    · rw [exec_zero]
      exact Or.inl rfl
    · rw [exec_zero]
      exact Or.inl rfl
  | succ f ih =>
    constructor
    · intro n b s hk hbn hb v
      rw [exec_setBranch_step]
      set s1 := updNode s n (fun nd => { nd with branch := some b }) with hs1def
      have hshape : SameShape s s1 := sameShape_updBranch s n (some b)
      have hk1 : HeapKids s1 := heapKids_of_sameShape hshape hk
      have hcomp : ∀ u, (nodeAt s1 u).branch = (nodeAt s u).branch ∨
          ((nodeAt s1 u).branch = some b ∧ u = n) := by
        intro u
        by_cases hu : u = n
        · subst hu
          by_cases hlt : u < s.heap.length
          · right
            rw [hs1def, nodeAt_updNode_same s u _ hlt]
            exact ⟨rfl, rfl⟩
          · left
            rw [hs1def, updNode_oob s u _ (Nat.le_of_not_lt hlt)]
        · left
          rw [hs1def, nodeAt_updNode_ne s n u _ hu]
      -- splice an s1-relative disjunction down to an s-relative one
      have hglue : ∀ (s' : St), (∀ u, ((nodeAt s' u).branch = (nodeAt s1 u).branch ∨
            ∃ w, (nodeAt s' u).branch = some w ∧ w ≤ u ∧ (w = u ∨ kidsOf s1 w ≠ []))) →
          ((nodeAt s' v).branch = (nodeAt s v).branch ∨
            ∃ w, (nodeAt s' v).branch = some w ∧ w ≤ v ∧ (w = v ∨ kidsOf s w ≠ [])) := by
        intro s' hdisj
        rcases hdisj v with h1 | ⟨w, hw1, hw2, hw3⟩
        · rcases hcomp v with h2 | ⟨h2, h3⟩
          · exact Or.inl (h1.trans h2)
          · subst h3
            rcases hb with hbeq | hbk
            · exact Or.inr ⟨b, h1.trans h2, hbn, Or.inl hbeq⟩
            · exact Or.inr ⟨b, h1.trans h2, hbn, Or.inr hbk⟩
        · refine Or.inr ⟨w, hw1, hw2, ?_⟩
          rcases hw3 with h | h
          · exact Or.inl h
          · rw [kidsOf_sameShape hshape] at h
            exact Or.inr h
      rcases hks : (nodeAt s1 n).nextLinks with _ | ⟨c, _ | ⟨d, rest⟩⟩
      · exact hglue _ (fun u => ih.2 [] s1 hk1 u)
      · have hc : n < c ∧ c < s1.heap.length := (hk1 n).1 c (by
          unfold kidsOf
          rw [hks]
          exact List.mem_cons_self c [])
        have hb1 : b = c ∨ kidsOf s1 b ≠ [] := by
          rcases hb with hbeq | hbk
          · right
            subst hbeq
            unfold kidsOf
            rw [hks]
            simp
          · right
            rw [kidsOf_sameShape hshape]
            exact hbk
        exact hglue _ (fun u => ih.1 c b s1 hk1 (by omega) hb1 u)
      · exact hglue _ (fun u => ih.2 (c :: d :: rest) s1 hk1 u)
    · intro ids s hk v
      cases ids with
      | nil =>
        rw [exec_setBranchKids_nil]
        exact Or.inl rfl
      | cons c rest =>
        rw [exec_setBranchKids_cons]
        rcases hrun : exec f (Call.setBranch c c) s with ⟨s2, r⟩
        have hshape : SameShape s s2 := by
          have := (walk_frame f).1 c c s
          rwa [hrun] at this
        have hd1 : ∀ u, (nodeAt s2 u).branch = (nodeAt s u).branch ∨
            ∃ w, (nodeAt s2 u).branch = some w ∧ w ≤ u ∧ (w = u ∨ kidsOf s w ≠ []) := by
          intro u
          have := ih.1 c c s hk (le_refl c) (Or.inl rfl) u
          rwa [hrun] at this
        have hk2 : HeapKids s2 := heapKids_of_sameShape hshape hk
        have hglue2 : ((nodeAt (exec f (Call.setBranchKids rest) s2).1 v).branch =
              (nodeAt s v).branch ∨
            ∃ w, (nodeAt (exec f (Call.setBranchKids rest) s2).1 v).branch = some w ∧ w ≤ v ∧
              (w = v ∨ kidsOf s w ≠ [])) := by
          rcases ih.2 rest s2 hk2 v with h1 | ⟨w, hw1, hw2, hw3⟩
          · rcases hd1 v with h2 | ⟨w, hw1, hw2, hw3⟩
            · exact Or.inl (h1.trans h2)
            · exact Or.inr ⟨w, h1.trans hw1, hw2, hw3⟩
          · refine Or.inr ⟨w, hw1, hw2, ?_⟩
            rcases hw3 with h | h
            · exact Or.inl h
            · rw [kidsOf_sameShape hshape] at h
              exact Or.inr h
        cases r with
        | ok vv => exact hglue2
        | thrown e => exact hd1 v
        | out => exact hd1 v


/-- The heap/nodes part of `then` on a node with no prior callbacks
(lines 337-343): push the child inheriting root and branch, link it,
and store the callback. -/
def thenMidA (x : Nat) (s : St) : St :=
  updNode { s with heap := s.heap ++
      [{ root := some ((nodeAt s x).root.getD s.heap.length),
         branch := some ((nodeAt s x).branch.getD s.heap.length) }] } x
    (fun n => { n with nextLinks := n.nextLinks ++ [s.heap.length],
                       callbackFns := n.callbackFns ++ [Fn.spy 0] })

/-- The heap/nodes part of `then` on a node with prior callbacks, before
the rearrangement walk and the callback push (lines 311-316): push the
child as its own branch head and link it. -/
def thenMidB (x : Nat) (s : St) : St :=
  updNode { s with heap := s.heap ++
      [{ root := some ((nodeAt s x).root.getD s.heap.length),
         branch := some s.heap.length }] } x
    (fun n => { n with nextLinks := n.nextLinks ++ [s.heap.length] })

theorem heapLen_thenMidA (x : Nat) (s : St) :
    (thenMidA x s).heap.length = s.heap.length + 1 := by
  unfold thenMidA
  rw [heapLen_updNode]
  simp

theorem heapLen_thenMidB (x : Nat) (s : St) :
    (thenMidB x s).heap.length = s.heap.length + 1 := by
  unfold thenMidB
  rw [heapLen_updNode]
  simp

theorem nodeAt_thenMidA_x (x : Nat) (s : St) (hx : x < s.heap.length) :
    nodeAt (thenMidA x s) x = { nodeAt s x with
      nextLinks := (nodeAt s x).nextLinks ++ [s.heap.length],
      callbackFns := (nodeAt s x).callbackFns ++ [Fn.spy 0] } := by
  unfold thenMidA
  rw [nodeAt_updNode_same _ _ _ (by simp; omega), nodeAt_push_lt s _ x hx]

theorem nodeAt_thenMidB_x (x : Nat) (s : St) (hx : x < s.heap.length) :
    nodeAt (thenMidB x s) x = { nodeAt s x with
      nextLinks := (nodeAt s x).nextLinks ++ [s.heap.length] } := by
  unfold thenMidB
  rw [nodeAt_updNode_same _ _ _ (by simp; omega), nodeAt_push_lt s _ x hx]

theorem nodeAt_thenMidA_new (x : Nat) (s : St) (hx : x < s.heap.length) :
    nodeAt (thenMidA x s) s.heap.length =
      { root := some ((nodeAt s x).root.getD s.heap.length),
        branch := some ((nodeAt s x).branch.getD s.heap.length) } := by
  unfold thenMidA
  rw [nodeAt_updNode_ne _ _ _ _ (by omega)]
  exact nodeAt_push_self s _

theorem nodeAt_thenMidB_new (x : Nat) (s : St) (hx : x < s.heap.length) :
    nodeAt (thenMidB x s) s.heap.length =
      { root := some ((nodeAt s x).root.getD s.heap.length),
        branch := some s.heap.length } := by
  unfold thenMidB
  rw [nodeAt_updNode_ne _ _ _ _ (by omega)]
  exact nodeAt_push_self s _

theorem nodeAt_thenMidA_other (x : Nat) (s : St) (v : Nat) (hvx : v ≠ x)
    (hvm : v ≠ s.heap.length) : nodeAt (thenMidA x s) v = nodeAt s v := by
  unfold thenMidA
  rw [nodeAt_updNode_ne _ _ _ _ hvx]
  by_cases hv : v < s.heap.length
  · exact nodeAt_push_lt s _ v hv
  · rw [nodeAt_push_gt s _ v (by omega), nodeAt_oob s v (by omega)]

theorem nodeAt_thenMidB_other (x : Nat) (s : St) (v : Nat) (hvx : v ≠ x)
    (hvm : v ≠ s.heap.length) : nodeAt (thenMidB x s) v = nodeAt s v := by
  unfold thenMidB
  rw [nodeAt_updNode_ne _ _ _ _ hvx]
  by_cases hv : v < s.heap.length
  · exact nodeAt_push_lt s _ v hv
  · rw [nodeAt_push_gt s _ v (by omega), nodeAt_oob s v (by omega)]

theorem kidsOf_thenMidA (x : Nat) (s : St) (hx : x < s.heap.length) (v : Nat) :
    kidsOf (thenMidA x s) v =
      if v = x then kidsOf s v ++ [s.heap.length] else kidsOf s v := by
  unfold kidsOf
  by_cases hvx : v = x
  · subst hvx
    rw [nodeAt_thenMidA_x v s hx, if_pos rfl]
  · rw [if_neg hvx]
    by_cases hvm : v = s.heap.length
    · subst hvm
      rw [nodeAt_thenMidA_new x s hx, nodeAt_oob s s.heap.length (le_refl _)]
    · rw [nodeAt_thenMidA_other x s v hvx hvm]

theorem kidsOf_thenMidB (x : Nat) (s : St) (hx : x < s.heap.length) (v : Nat) :
    kidsOf (thenMidB x s) v =
      if v = x then kidsOf s v ++ [s.heap.length] else kidsOf s v := by
  unfold kidsOf
  by_cases hvx : v = x
  · subst hvx
    rw [nodeAt_thenMidB_x v s hx, if_pos rfl]
  · rw [if_neg hvx]
    by_cases hvm : v = s.heap.length
    · subst hvm
      rw [nodeAt_thenMidB_new x s hx, nodeAt_oob s s.heap.length (le_refl _)]
    · rw [nodeAt_thenMidB_other x s v hvx hvm]

theorem heapKids_push_kid (s : St) (x : Nat) (hx : x < s.heap.length) (hk : HeapKids s)
    (s' : St) (hlen : s'.heap.length = s.heap.length + 1)
    (hkid : ∀ v, kidsOf s' v = if v = x then kidsOf s v ++ [s.heap.length] else kidsOf s v) :
    HeapKids s' := by
  intro i
  rw [hkid i, hlen]
  by_cases hix : i = x
  · subst hix
    rw [if_pos rfl]
    constructor
    · intro a ha
      rcases List.mem_append.1 ha with h | h
      · have := (hk i).1 a h
        omega
      · have : a = s.heap.length := List.mem_singleton.1 h
        omega
    · have hnm : s.heap.length ∉ kidsOf s i := by
        intro hmem
        have := (hk i).1 _ hmem
        omega
      simp only [List.nodup_append, List.nodup_cons, List.not_mem_nil, List.nodup_nil]
      exact ⟨(hk i).2, by simp, by
        intro a ha hb
        rcases List.mem_singleton.1 hb with rfl
        exact hnm ha⟩
  · rw [if_neg hix]
    refine ⟨fun a ha => ?_, (hk i).2⟩
    have := (hk i).1 a ha
    omega

theorem heapKids_thenMidB (x : Nat) (s : St) (hx : x < s.heap.length) (hk : HeapKids s) :
    HeapKids (thenMidB x s) :=
  heapKids_push_kid s x hx hk _ (heapLen_thenMidB x s) (kidsOf_thenMidB x s hx)


/-- A `then` on a node with no stored callbacks only builds the child and
possibly schedules a task: the heap is exactly `thenMidA`. -/
theorem thenOp_caseA (x : Nat) (s : St)
    (hcb : (nodeAt s x).callbackFns.length = 0) :
    ∃ ts : List Task, thenOp x s = { thenMidA x s with tasks := ts } := by
  unfold thenOp
  rw [show (2 : Nat) ^ (s.heap.length + 2) + 4 = (2 ^ (s.heap.length + 2) + 3) + 1 by omega,
    exec_succ]
  simp only [execBody]
  split
  · rename_i h
    rw [hcb] at h
    exact absurd h (by decide)
  · unfold thenMidA
    split
    · exact ⟨_, rfl⟩
    · split
      · exact ⟨_, rfl⟩
      · split
        · exact ⟨_, rfl⟩
        · exact ⟨_, rfl⟩


/-- Storing the callback after the walk (line 321). -/
def cbPush : Node → Node := fun n => { n with callbackFns := n.callbackFns ++ [Fn.spy 0] }

/-- A `then` on a node with stored callbacks pushes the child as its own
branch head, runs the rearrangement walk when the 1-to-2 transition
fires, stores the callback, and possibly schedules a task. The resulting
heap is a branch-only rewrite of `thenMidB` in which the new child still
points at itself, and every rewritten branch field satisfies the head
discipline. -/
theorem thenOp_caseB (x : Nat) (s : St) (hk : HeapKids s) (hcl : cbLen s)
    (hbo : branchOK s) (hx : x < s.heap.length)
    (hcb : (nodeAt s x).callbackFns.length ≠ 0) :
    ∃ s3 ts, thenOp x s =
        { updNode s3 x cbPush with tasks := ts } ∧
      SameShape (thenMidB x s) s3 ∧
      (nodeAt s3 s.heap.length).branch = some s.heap.length ∧
      (∀ v, (nodeAt s3 v).branch = (nodeAt (thenMidB x s) v).branch ∨
        ∃ w, (nodeAt s3 v).branch = some w ∧ w ≤ v ∧
          (w = v ∨ kidsOf (thenMidB x s) w ≠ [])) := by
  obtain ⟨b, hbx, hbeq, hbr⟩ := hbo x hx
  have hkB : HeapKids (thenMidB x s) := heapKids_thenMidB x s hx hk
  have hlenB : (thenMidB x s).heap.length = s.heap.length + 1 := heapLen_thenMidB x s
  have hmB : (nodeAt (thenMidB x s) s.heap.length).branch = some s.heap.length := by
    rw [nodeAt_thenMidB_new x s hx]
  have hwB : ∀ v, (nodeAt (thenMidB x s) v).branch =
      (nodeAt (thenMidB x s) v).branch ∨
      ∃ w, (nodeAt (thenMidB x s) v).branch = some w ∧ w ≤ v ∧
        (w = v ∨ kidsOf (thenMidB x s) w ≠ []) := fun v => Or.inl rfl
  unfold thenOp
  rw [show (2 : Nat) ^ (s.heap.length + 2) + 4 = (2 ^ (s.heap.length + 2) + 3) + 1 by omega,
    exec_succ]
  simp only [execBody]
  split
  · -- callbacks present: the real branch
    rw [hbeq]
    cases hc1 : ((nodeAt s x).callbackFns.length == 1) with
    | true =>
      -- the 1-to-2 transition: the rearrangement walk runs
      have hkbne : kidsOf (thenMidB x s) b ≠ [] := by
        rw [kidsOf_thenMidB x s hx b]
        by_cases hbxx : b = x
        · rw [if_pos hbxx]
          simp
        · rw [if_neg hbxx]
          rcases hbr with hbb | hne
          · exact absurd hbb hbxx
          · exact hne
      obtain ⟨c, rest2, hcons⟩ : ∃ c rest2,
          kidsOf (thenMidB x s) b = c :: rest2 := by
        rcases hE : kidsOf (thenMidB x s) b with _ | ⟨c, r2⟩
        · exact absurd hE hkbne
        · exact ⟨c, r2, rfl⟩
      unfold kidsOf at hcons
      have hfuel : 2 ^ ((thenMidB x s).heap.length - c) * 2 ≤
          2 ^ (s.heap.length + 2) + 2 := by
        rw [hlenB]
        have h1 : 2 ^ (s.heap.length + 1 - c) * 2 = 2 ^ (s.heap.length + 1 - c + 1) := by
          rw [Nat.pow_succ]
        have h2 : 2 ^ (s.heap.length + 1 - c + 1) ≤ 2 ^ (s.heap.length + 2) :=
          Nat.pow_le_pow_right (by omega) (by omega)
        omega
      obtain ⟨s3, hs3⟩ :=
        (walk_fuel (2 ^ (s.heap.length + 2) + 2)).1 c c (thenMidB x s) hkB hfuel
      have hshape : SameShape (thenMidB x s) s3 := by
        have := (walk_frame (2 ^ (s.heap.length + 2) + 2)).1 c c (thenMidB x s)
        rwa [hs3] at this
      have hdeg : ∀ i, s.heap.length ∈ kidsOf (thenMidB x s) i →
          2 ≤ (kidsOf (thenMidB x s) i).length := by
        intro i hmem
        rw [kidsOf_thenMidB x s hx i] at hmem ⊢
        by_cases hix : i = x
        · rw [if_pos hix] at hmem ⊢
          simp only [List.length_append, List.length_cons, List.length_nil]
          have hc2 : (kidsOf s x).length ≠ 0 := by
            rw [← hcl x]
            exact hcb
          rw [hix]
          omega
        · rw [if_neg hix] at hmem
          have := (hk i).1 _ hmem
          omega
      have hm3 : (nodeAt s3 s.heap.length).branch = some s.heap.length := by
        have := (walk_keeps_fresh (2 ^ (s.heap.length + 2) + 2)).1 c c s.heap.length
          (thenMidB x s) hdeg (fun h => h) hmB
        rwa [hs3] at this
      have hw3 : ∀ v, (nodeAt s3 v).branch = (nodeAt (thenMidB x s) v).branch ∨
          ∃ w, (nodeAt s3 v).branch = some w ∧ w ≤ v ∧
            (w = v ∨ kidsOf (thenMidB x s) w ≠ []) := by
        intro v
        have := (walk_writes (2 ^ (s.heap.length + 2) + 2)).1 c c (thenMidB x s) hkB
          (le_refl c) (Or.inl rfl) v
        rwa [hs3] at this
      unfold thenMidB at hcons hs3
      simp only []
      rw [show (2 : Nat) ^ (s.heap.length + 2) + 3 = (2 ^ (s.heap.length + 2) + 2) + 1
        by omega, exec_succ]
      simp only [execBody]
      rw [hcons]
      simp only [List.head?]
      rw [hs3]
      simp only []
      split
      · exact ⟨s3, _, rfl, hshape, hm3, hw3⟩
      · split
        · exact ⟨s3, _, rfl, hshape, hm3, hw3⟩
        · split
          · exact ⟨s3, _, rfl, hshape, hm3, hw3⟩
          · exact ⟨s3, _, rfl, hshape, hm3, hw3⟩
    | false =>
      -- two or more callbacks already stored: no walk
      simp only []
      split
      · exact ⟨_, _, rfl, sameShape_refl _, hmB, hwB⟩
      · split
        · exact ⟨_, _, rfl, sameShape_refl _, hmB, hwB⟩
        · split
          · exact ⟨_, _, rfl, sameShape_refl _, hmB, hwB⟩
          · exact ⟨_, _, rfl, sameShape_refl _, hmB, hwB⟩
  · rename_i h
    have : (nodeAt s x).callbackFns.length = 0 := by
      rcases hE : (nodeAt s x).callbackFns.length with _ | n
      · rfl
      · rw [hE] at h
        exact absurd rfl h
    exact absurd this hcb


theorem thenOp_heapLen (x : Nat) (s : St) (hWF : WF s) (hx : x < s.heap.length) :
    (thenOp x s).heap.length = s.heap.length + 1 := by
  obtain ⟨hk, hcl, hbo⟩ := hWF
  by_cases hcb : (nodeAt s x).callbackFns.length = 0
  · obtain ⟨ts, heq⟩ := thenOp_caseA x s hcb
    rw [heq]
    show (thenMidA x s).heap.length = s.heap.length + 1
    exact heapLen_thenMidA x s
  · obtain ⟨s3, ts, heq, hshape, -, -⟩ := thenOp_caseB x s hk hcl hbo hx hcb
    rw [heq]
    show (updNode s3 x cbPush).heap.length = s.heap.length + 1
    rw [heapLen_updNode, hshape.1, heapLen_thenMidB]

theorem thenOp_kids (x : Nat) (s : St) (hWF : WF s) (hx : x < s.heap.length) (v : Nat) :
    kidsOf (thenOp x s) v =
      if v = x then kidsOf s v ++ [s.heap.length] else kidsOf s v := by
  obtain ⟨hk, hcl, hbo⟩ := hWF
  by_cases hcb : (nodeAt s x).callbackFns.length = 0
  · obtain ⟨ts, heq⟩ := thenOp_caseA x s hcb
    rw [heq]
    show kidsOf (thenMidA x s) v = _
    exact kidsOf_thenMidA x s hx v
  · obtain ⟨s3, ts, heq, hshape, -, -⟩ := thenOp_caseB x s hk hcl hbo hx hcb
    rw [heq]
    show kidsOf (updNode s3 x cbPush) v = _
    have hsk : kidsOf s3 v = kidsOf (thenMidB x s) v := kidsOf_sameShape hshape v
    by_cases hvx : v = x
    · subst hvx
      have hv3 : v < s3.heap.length := by
        rw [hshape.1, heapLen_thenMidB]
        omega
      unfold kidsOf at hsk ⊢
      rw [nodeAt_updNode_same s3 v _ hv3]
      show (nodeAt s3 v).nextLinks = _
      rw [hsk, nodeAt_thenMidB_x v s hx, if_pos rfl]
    · unfold kidsOf at hsk ⊢
      rw [nodeAt_updNode_ne s3 x v _ hvx, hsk, if_neg hvx]
      by_cases hvm : v = s.heap.length
      · subst hvm
        rw [nodeAt_thenMidB_new x s hx, nodeAt_oob s _ (le_refl _)]
      · rw [nodeAt_thenMidB_other x s v hvx hvm]

theorem thenOp_cbFns (x : Nat) (s : St) (hWF : WF s) (hx : x < s.heap.length) (v : Nat) :
    (nodeAt (thenOp x s) v).callbackFns =
      if v = x then (nodeAt s v).callbackFns ++ [Fn.spy 0]
      else (nodeAt s v).callbackFns := by
  obtain ⟨hk, hcl, hbo⟩ := hWF
  by_cases hcb : (nodeAt s x).callbackFns.length = 0
  · obtain ⟨ts, heq⟩ := thenOp_caseA x s hcb
    rw [heq]
    show (nodeAt (thenMidA x s) v).callbackFns = _
    by_cases hvx : v = x
    · subst hvx
      rw [nodeAt_thenMidA_x v s hx, if_pos rfl]
    · rw [if_neg hvx]
      by_cases hvm : v = s.heap.length
      · subst hvm
        rw [nodeAt_thenMidA_new x s hx, nodeAt_oob s _ (le_refl _)]
      · rw [nodeAt_thenMidA_other x s v hvx hvm]
  · obtain ⟨s3, ts, heq, hshape, -, -⟩ := thenOp_caseB x s hk hcl hbo hx hcb
    rw [heq]
    show (nodeAt (updNode s3 x cbPush) v).callbackFns = _
    have hsn : nodeAt s3 v =
        { nodeAt (thenMidB x s) v with branch := (nodeAt s3 v).branch } := hshape.2.2 v
    by_cases hvx : v = x
    · subst hvx
      have hv3 : v < s3.heap.length := by
        rw [hshape.1, heapLen_thenMidB]
        omega
      rw [nodeAt_updNode_same s3 v _ hv3, if_pos rfl]
      show (nodeAt s3 v).callbackFns ++ [Fn.spy 0] = _
      rw [hsn]
      show (nodeAt (thenMidB v s) v).callbackFns ++ [Fn.spy 0] = _
      rw [nodeAt_thenMidB_x v s hx]
    · rw [nodeAt_updNode_ne s3 x v _ hvx, if_neg hvx, hsn]
      show (nodeAt (thenMidB x s) v).callbackFns = _
      by_cases hvm : v = s.heap.length
      · subst hvm
        rw [nodeAt_thenMidB_new x s hx, nodeAt_oob s _ (le_refl _)]
      · rw [nodeAt_thenMidB_other x s v hvx hvm]

theorem thenOp_branch_new_inherits (x : Nat) (s : St) (hWF : WF s)
    (hx : x < s.heap.length) (hcb : (nodeAt s x).callbackFns.length = 0) :
    (nodeAt (thenOp x s) s.heap.length).branch = (nodeAt s x).branch := by
  obtain ⟨hk, hcl, hbo⟩ := hWF
  obtain ⟨b, hbx, hbeq, hbr⟩ := hbo x hx
  obtain ⟨ts, heq⟩ := thenOp_caseA x s hcb
  rw [heq]
  show (nodeAt (thenMidA x s) s.heap.length).branch = _
  rw [nodeAt_thenMidA_new x s hx]
  show some ((nodeAt s x).branch.getD s.heap.length) = _
  rw [hbeq]
  rfl

theorem thenOp_branch_new_self (x : Nat) (s : St) (hWF : WF s)
    (hx : x < s.heap.length) (hcb : (nodeAt s x).callbackFns.length ≠ 0) :
    (nodeAt (thenOp x s) s.heap.length).branch = some s.heap.length := by
  obtain ⟨hk, hcl, hbo⟩ := hWF
  obtain ⟨s3, ts, heq, hshape, hm3, -⟩ := thenOp_caseB x s hk hcl hbo hx hcb
  rw [heq]
  show (nodeAt (updNode s3 x cbPush) s.heap.length).branch = _
  by_cases hxm : s.heap.length = x
  · omega
  · rw [nodeAt_updNode_ne s3 x _ _ hxm]
    exact hm3

theorem thenOp_branch_old (x : Nat) (s : St) (hWF : WF s) (hx : x < s.heap.length)
    (v : Nat) (hv : v < s.heap.length) :
    (nodeAt (thenOp x s) v).branch = (nodeAt s v).branch ∨
    ∃ w, (nodeAt (thenOp x s) v).branch = some w ∧ w ≤ v ∧
      (w = v ∨ w = x ∨ kidsOf s w ≠ []) := by
  obtain ⟨hk, hcl, hbo⟩ := hWF
  by_cases hcb : (nodeAt s x).callbackFns.length = 0
  · obtain ⟨ts, heq⟩ := thenOp_caseA x s hcb
    rw [heq]
    show (nodeAt (thenMidA x s) v).branch = (nodeAt s v).branch ∨ _
    left
    by_cases hvx : v = x
    · subst hvx
      rw [nodeAt_thenMidA_x v s hx]
    · rw [nodeAt_thenMidA_other x s v hvx (by omega)]
  · obtain ⟨s3, ts, heq, hshape, -, hw3⟩ := thenOp_caseB x s hk hcl hbo hx hcb
    rw [heq]
    show (nodeAt (updNode s3 x cbPush) v).branch = (nodeAt s v).branch ∨
      ∃ w, (nodeAt (updNode s3 x cbPush) v).branch = some w ∧ w ≤ v ∧
        (w = v ∨ w = x ∨ kidsOf s w ≠ [])
    have hbv : (nodeAt (updNode s3 x cbPush) v).branch = (nodeAt s3 v).branch := by
      by_cases hvx : v = x
      · subst hvx
        have hv3 : v < s3.heap.length := by
          rw [hshape.1, heapLen_thenMidB]
          omega
        rw [nodeAt_updNode_same s3 v _ hv3]
        rfl
      · rw [nodeAt_updNode_ne s3 x v _ hvx]
    rw [hbv]
    have hmidv : (nodeAt (thenMidB x s) v).branch = (nodeAt s v).branch := by
      by_cases hvx : v = x
      · subst hvx
        rw [nodeAt_thenMidB_x v s hx]
      · rw [nodeAt_thenMidB_other x s v hvx (by omega)]
    rcases hw3 v with h1 | ⟨w, hw1, hw2, hw3c⟩
    · left
      rw [h1, hmidv]
    · right
      refine ⟨w, hw1, hw2, ?_⟩
      rcases hw3c with h | h
      · exact Or.inl h
      · rw [kidsOf_thenMidB x s hx w] at h
        by_cases hwx : w = x
        · exact Or.inr (Or.inl hwx)
        · rw [if_neg hwx] at h
          exact Or.inr (Or.inr h)


/-- then preserves the invariant of then-only heaps. -/
theorem wf_thenOp (x : Nat) (s : St) (hWF : WF s) (hx : x < s.heap.length) :
    WF (thenOp x s) := by
  obtain ⟨hk, hcl, hbo⟩ := hWF
  have hlen := thenOp_heapLen x s ⟨hk, hcl, hbo⟩ hx
  have hkids := thenOp_kids x s ⟨hk, hcl, hbo⟩ hx
  have hkids' : HeapKids (thenOp x s) :=
    heapKids_push_kid s x hx hk _ hlen hkids
  refine ⟨hkids', ?_, ?_⟩
  · intro i
    rw [thenOp_cbFns x s ⟨hk, hcl, hbo⟩ hx i, hkids i]
    by_cases hix : i = x
    · rw [if_pos hix, if_pos hix]
      simp only [List.length_append, List.length_cons, List.length_nil]
      rw [hcl i]
    · rw [if_neg hix, if_neg hix]
      exact hcl i
  · intro i hi
    rw [hlen] at hi
    by_cases him : i = s.heap.length
    · subst him
      by_cases hcb : (nodeAt s x).callbackFns.length = 0
      · obtain ⟨b, hbx, hbeq, hbr⟩ := hbo x hx
        refine ⟨b, by omega, ?_, ?_⟩
        · rw [thenOp_branch_new_inherits x s ⟨hk, hcl, hbo⟩ hx hcb]
          exact hbeq
        · right
          rw [hkids b]
          rcases hbr with hbb | hne
          · rw [if_pos hbb]
            simp
          · by_cases hbxx : b = x
            · rw [if_pos hbxx]
              simp
            · rw [if_neg hbxx]
              exact hne
      · exact ⟨s.heap.length, le_refl _,
          thenOp_branch_new_self x s ⟨hk, hcl, hbo⟩ hx hcb, Or.inl rfl⟩
    · have hiv : i < s.heap.length := by omega
      rcases thenOp_branch_old x s ⟨hk, hcl, hbo⟩ hx i hiv with h1 | ⟨w, hw1, hw2, hw3⟩
      · obtain ⟨b, hbi, hbeq, hbr⟩ := hbo i hiv
        refine ⟨b, hbi, by rw [h1]; exact hbeq, ?_⟩
        rcases hbr with hbb | hne
        · exact Or.inl hbb
        · right
          rw [hkids b]
          by_cases hbxx : b = x
          · rw [if_pos hbxx]
            simp
          · rw [if_neg hbxx]
            exact hne
      · refine ⟨w, hw2, hw1, ?_⟩
        rcases hw3 with h | h | h
        · exact Or.inl h
        · right
          rw [hkids w, if_pos h]
          simp
        · right
          rw [hkids w]
          by_cases hwx : w = x
          · rw [if_pos hwx]
            simp
          · rw [if_neg hwx]
            exact h

/-- The freshly constructed single-node heap satisfies the invariant. -/
theorem wf_init : WF (mkDeferred emptySt).1 := by
  have hnil : ∀ i, kidsOf (mkDeferred emptySt).1 i = [] := by
    intro i
    cases i with
    | zero => rfl
    | succ n => rfl
  refine ⟨?_, ?_, ?_⟩
  · intro i
    rw [hnil i]
    exact ⟨fun a ha => absurd ha (List.not_mem_nil a), List.nodup_nil⟩
  · intro i
    rw [hnil i]
    cases i with
    | zero => rfl
    | succ n => rfl
  · intro i hi
    have h1 : (mkDeferred emptySt).1.heap.length = 1 := rfl
    rw [h1] at hi
    have : i = 0 := by omega
    subst this
    exact ⟨0, le_refl 0, rfl, Or.inl rfl⟩

/-- Every state reached by a sequence of then calls satisfies the
invariant. -/
theorem wf_thenRun (ops : List Nat) : WF (thenRun ops) := by
  have hstep : ∀ (l : List Nat) (s : St), WF s →
      WF (l.foldl (fun s x => if x < s.heap.length then thenOp x s else s) s) := by
    intro l
    induction l with
    | nil => exact fun s h => h
    | cons a l ih =>
      intro s h
      show WF (l.foldl _ (if a < s.heap.length then thenOp a s else s))
      by_cases ha : a < s.heap.length
      · rw [if_pos ha]
        exact ih _ (wf_thenOp a s h ha)
      · rw [if_neg ha]
        exact ih _ h
  exact hstep ops _ wf_init


/-- Claim C4 (amended): after a `then` call on any node x of a heap
reachable by then calls, the parent gains exactly the new child m, and
the NEW child's branch pointer equals the child itself if and only if
the parent now has at least two children (is a branch point); when the
parent has exactly one child, the new child's branch equals the parent's
branch pointer. (The claim's original universally quantified form over
all existing children is refuted by c4_branch_invariant_violated: the
rearrangement walk re-heads mid-chain nodes, so the rule only governs
the child created by the current then call.) -/
theorem c4_new_child_branch_rule (ops : List Nat) (x : Nat)
    (hx : x < (thenRun ops).heap.length) :
    (nodeAt (thenOp x (thenRun ops)) x).nextLinks
        = (nodeAt (thenRun ops) x).nextLinks ++ [(thenRun ops).heap.length] ∧
    (((nodeAt (thenOp x (thenRun ops)) ((thenRun ops).heap.length)).branch
        = some ((thenRun ops).heap.length))
      ↔ 2 ≤ (nodeAt (thenOp x (thenRun ops)) x).nextLinks.length) ∧
    ((nodeAt (thenOp x (thenRun ops)) x).nextLinks.length = 1 →
      (nodeAt (thenOp x (thenRun ops)) ((thenRun ops).heap.length)).branch
        = (nodeAt (thenRun ops) x).branch) := by
  obtain ⟨hk, hcl, hbo⟩ := wf_thenRun ops
  have hkids := thenOp_kids x (thenRun ops) ⟨hk, hcl, hbo⟩ hx x
  rw [if_pos rfl] at hkids
  unfold kidsOf at hkids
  refine ⟨hkids, ?_, ?_⟩
  · by_cases hcb : (nodeAt (thenRun ops) x).callbackFns.length = 0
    · have hinh := thenOp_branch_new_inherits x (thenRun ops) ⟨hk, hcl, hbo⟩ hx hcb
      obtain ⟨b, hbx, hbeq, hbr⟩ := hbo x hx
      have hk0 : (kidsOf (thenRun ops) x).length = 0 := by
        rw [← hcl x]
        exact hcb
      unfold kidsOf at hk0
      constructor
      · intro h
        exfalso
        rw [hinh, hbeq] at h
        injection h with h2
        omega
      · intro h
        exfalso
        rw [hkids] at h
        simp only [List.length_append, List.length_cons, List.length_nil] at h
        omega
    · have hself := thenOp_branch_new_self x (thenRun ops) ⟨hk, hcl, hbo⟩ hx hcb
      have hk1 : (kidsOf (thenRun ops) x).length ≠ 0 := by
        rw [← hcl x]
        exact hcb
      unfold kidsOf at hk1
      constructor
      · intro _
        rw [hkids]
        simp only [List.length_append, List.length_cons, List.length_nil]
        omega
      · intro _
        exact hself
  · intro h1
    rw [hkids] at h1
    simp only [List.length_append, List.length_cons, List.length_nil] at h1
    have hcb : (nodeAt (thenRun ops) x).callbackFns.length = 0 := by
      rw [hcl x]
      unfold kidsOf
      omega
    exact thenOp_branch_new_inherits x (thenRun ops) ⟨hk, hcl, hbo⟩ hx hcb

theorem c4_new_child_branch_rule_witness :
    0 < (thenRun []).heap.length ∧
    ((nodeAt (thenOp 0 (thenRun [])) 0).nextLinks
        = (nodeAt (thenRun []) 0).nextLinks ++ [(thenRun []).heap.length] ∧
    (((nodeAt (thenOp 0 (thenRun [])) ((thenRun []).heap.length)).branch
        = some ((thenRun []).heap.length))
      ↔ 2 ≤ (nodeAt (thenOp 0 (thenRun [])) 0).nextLinks.length) ∧
    ((nodeAt (thenOp 0 (thenRun [])) 0).nextLinks.length = 1 →
      (nodeAt (thenOp 0 (thenRun [])) ((thenRun []).heap.length)).branch
        = (nodeAt (thenRun []) 0).branch)) :=
  ⟨by decide, c4_new_child_branch_rule [] 0 (by decide)⟩

end MomentsDeferred
